import Mathlib

/-!
# Verification of the mvp-template validators

Shallow embedding of the repository's four Python validator scripts
(`scripts/validate-frontmatter.py`, `scripts/validate-semantics.py`,
`scripts/validate-events.py`, `scripts/validate-idea.py`) and proofs about
them.

Modelling conventions:
* YAML values are modelled by the inductive type `Yaml` (string keys only,
  which is the only kind of key the scripts ever look up).
* The external collaborator `yaml.safe_load` is a parameter
  `safeLoad : String -> Except String Yaml` of every function that calls it;
  an `Except.error` models the `yaml.YAMLError` exception that
  `yaml.safe_load` raises on undecodable input.  A Python `None` result is
  `Yaml.null` (both the regex miss and a YAML `null` document give Python
  `None`, so both map to `Yaml.null`).
* The external regex engine used only in check 10 of the frontmatter
  validator (`re.search(pattern, val)` over patterns read from
  `.gitleaks.toml`) is a parameter `search : String -> String -> Except Unit Bool`;
  `Except.error` models the `re.error` raised for a syntactically invalid
  pattern, `.ok b` models a successful search returning a match (`true`)
  or `None` (`false`).
* The file system is a finite map from paths to contents (`FS`), plus a list
  of directories for `os.path.isdir`.
* Python exceptions other than the two handled above (`TypeError`,
  `AttributeError`, `NameError` on the quirky paths of the scripts) are
  modelled by the `Except String` error channel of each embedded function;
  an uncaught exception makes the interpreter terminate with exit status 1.
* All character-level scanners transcribe the concrete regular expressions
  of the scripts (which are applied to ASCII documents); fuel-based
  recursion is only used where each step consumes at least one character,
  with the fuel initialised to the input length, so no input ever exhausts
  its fuel.
-/

/-- A YAML value as the scripts observe it through `yaml.safe_load`.
`null` doubles as Python's `None`. -/
inductive Yaml where
  | null : Yaml
  | bool (b : Bool) : Yaml
  | int (n : Int) : Yaml
  | str (s : String) : Yaml
  | list (xs : List Yaml) : Yaml
  | map (kvs : List (String × Yaml)) : Yaml

/-- The backtick character (written by code point to keep the source free of
stray backticks). -/
def btick : Char := Char.ofNat 96

/-- The single-quote character. -/
def squo : Char := Char.ofNat 39

/-- A single-quote as a one-character string, used when transcribing the
scripts' f-strings. -/
def squoS : String := String.mk [squo]

/-- Boolean contiguous-sublist test on character lists. -/
def charsInfix (needle : List Char) : List Char → Bool
  | [] => needle.isEmpty
  | c :: rest => needle.isPrefixOf (c :: rest) || charsInfix needle rest

/-- Python `str.__contains__` for strings: substring test. -/
def strContains (hay needle : String) : Bool :=
  charsInfix needle.data hay.data

/-- Python `str.startswith`. -/
def strStartsWith (s pre : String) : Bool :=
  pre.data.isPrefixOf s.data

/-- Python `str.endswith`. -/
def strEndsWith (s suf : String) : Bool :=
  suf.data.isSuffixOf s.data

/-- Python string `<=` (lexicographic by code point), as used by `sorted`. -/
def charsLe : List Char → List Char → Bool
  | [], _ => true
  | _ :: _, [] => false
  | a :: as, b :: bs => if a < b then true else if b < a then false else charsLe as bs

/-- String comparison for `sorted`. -/
def strLeB (a b : String) : Bool := charsLe a.data b.data

/-- Insert into a `strLeB`-sorted list. -/
def sortedInsert (x : String) : List String → List String
  | [] => [x]
  | y :: ys => if strLeB x y then x :: y :: ys else y :: sortedInsert x ys

/-- Python `sorted` on a list of strings (strings compare equal only when
identical, so stability is irrelevant). -/
def pysorted : List String → List String
  | [] => []
  | x :: xs => sortedInsert x (pysorted xs)

/-- Deduplication keeping the first occurrence (accumulator of already-seen
elements), used to model Python `set` followed by `sorted` (only the
surviving set of elements matters, since `sorted` reorders anyway). -/
def dedupGo (seen : List String) : List String → List String
  | [] => []
  | x :: xs => if seen.contains x then dedupGo seen xs else x :: dedupGo (x :: seen) xs

/-- `sorted(set(xs))` builds on this deduplication. -/
def dedupFirst (xs : List String) : List String := dedupGo [] xs

/-- Python truthiness of a YAML value. -/
def yamlTruthy : Yaml → Bool
  | .null => false
  | .bool b => b
  | .int n => !(n == 0)
  | .str s => !(s == "")
  | .list xs => !xs.isEmpty
  | .map kvs => !kvs.isEmpty

/-- Python `==` between a YAML value and a string literal (a non-string never
equals a string). -/
def yamlEqStr (y : Yaml) (s : String) : Bool :=
  match y with
  | .str t => t == s
  | _ => false

/-- Lookup in a (insertion-ordered) Python dict. -/
def dictGet? (kvs : List (String × Yaml)) (k : String) : Option Yaml :=
  (kvs.find? (fun p => p.1 == k)).map (·.2)

/-- `d.get(k, default)` on a dict. -/
def dictGetD (kvs : List (String × Yaml)) (k : String) (d : Yaml) : Yaml :=
  (dictGet? kvs k).getD d

/-- `k in d` on a dict. -/
def dictHasKey (kvs : List (String × Yaml)) (k : String) : Bool :=
  (kvs.find? (fun p => p.1 == k)).isSome

/-- Python `str`/`repr` rendering, fuel-bounded in nesting depth (the flag
selects `repr` mode, which quotes strings; containers always render their
elements in `repr` mode).  The corpora considered are nowhere near 100 levels
deep, so the fuel never runs out in any run we reason about. -/
def pyRender : Nat → Bool → Yaml → String
  | _, _, .null => "None"
  | _, _, .bool true => "True"
  | _, _, .bool false => "False"
  | _, _, .int n => toString n
  | _, false, .str s => s
  | _, true, .str s => squoS ++ s ++ squoS
  | 0, _, .list _ => "[]"
  | 0, _, .map _ => "\x7b\x7d"
  | fuel + 1, _, .list xs =>
      "[" ++ String.intercalate ", " (xs.map (pyRender fuel true)) ++ "]"
  | fuel + 1, _, .map kvs =>
      "\x7b" ++ String.intercalate ", " (kvs.map (fun p =>
        squoS ++ p.1 ++ squoS ++ ": " ++ pyRender fuel true p.2)) ++ "\x7d"

/-- Python `str(value)` as used in the scripts' f-strings. -/
def pyStr (y : Yaml) : String := pyRender 100 false y

/-- `key in value` for an arbitrary value (Python `in`): key lookup for
dicts, element equality for lists, substring test for strings, `TypeError`
otherwise. -/
def pyIn (k : String) : Yaml → Except String Bool
  | .map kvs => .ok (dictHasKey kvs k)
  | .list xs => .ok (xs.any (fun y => yamlEqStr y k))
  | .str s => .ok (strContains s k)
  | _ => .error "TypeError: argument is not iterable"

/-- `value.get(k, default)`: only dicts have `.get`; anything else raises
`AttributeError`. -/
def pyGetD (y : Yaml) (k : String) (d : Yaml) : Except String Yaml :=
  match y with
  | .map kvs => .ok (dictGetD kvs k d)
  | _ => .error "AttributeError: object has no attribute get"

/-- `for x in value`: lists iterate elements, dicts iterate keys, strings
iterate one-character strings; anything else raises `TypeError`. -/
def pyIter : Yaml → Except String (List Yaml)
  | .list xs => .ok xs
  | .map kvs => .ok (kvs.map (fun p => .str p.1))
  | .str s => .ok (s.data.map (fun c => .str (String.mk [c])))
  | _ => .error "TypeError: object is not iterable"

/-- `value.values()`: dicts only. -/
def pyValues : Yaml → Except String (List Yaml)
  | .map kvs => .ok (kvs.map (·.2))
  | _ => .error "AttributeError: object has no attribute values"

/-- Python `\w` over the ASCII documents the scripts process. -/
def isWordChar (c : Char) : Bool := c.isAlpha || c.isDigit || c = '_'

/-- Python `\s` over ASCII. -/
def isPySpace (c : Char) : Bool :=
  c = ' ' || c = '\t' || c = '\n' || c = '\x0d' || c = '\x0b' || c = '\x0c'

/-- Lowercase ASCII letter (`[a-z]`). -/
def isLowerAZ (c : Char) : Bool := 'a' ≤ c && c ≤ 'z'

/-- The character class `[a-z0-9-]` of the two name-format regexes. -/
def isNameClsChar (c : Char) : Bool :=
  ('a' ≤ c && c ≤ 'z') || ('0' ≤ c && c ≤ '9') || c = '-'

/-! ## File system model and file collection (validate-frontmatter.py lines 45-54) -/

/-- The file system visible to a run: a finite map from paths to contents,
plus the set of directories (for `os.path.isdir`). -/
structure FS where
  files : List (String × String)
  dirs : List String := []

/-- `os.path.isfile` / `os.path.exists` over the modelled universe. -/
def FS.isfile (fs : FS) (p : String) : Bool :=
  (fs.files.find? (fun q => q.1 == p)).isSome

/-- `open(p).read()` for a path known to exist. -/
def FS.read (fs : FS) (p : String) : String :=
  ((fs.files.find? (fun q => q.1 == p)).map (·.2)).getD ""

/-- `os.path.isdir`. -/
def FS.isdir (fs : FS) (p : String) : Bool := fs.dirs.contains p

/-- All paths of the universe. -/
def FS.paths (fs : FS) : List String := fs.files.map (·.1)

/-- The final path component (`os.path.basename`). -/
def pathBase (s : String) : String :=
  String.mk ((s.data.reverse.takeWhile (fun c => !(c == '/'))).reverse)

/-- `glob(".claude/stacks/**/*.md", recursive=True)` membership over the
modelled universe: under the stacks directory, any depth, `.md` extension,
non-hidden final component. -/
def isStackGlob (p : String) : Bool :=
  strStartsWith p ".claude/stacks/" && strEndsWith p ".md" &&
    !(strStartsWith (pathBase p) ".")

/-- `glob(".claude/commands/*.md")` membership: directly inside the commands
directory, `.md` extension, non-hidden name. -/
def isSkillGlob (p : String) : Bool :=
  strStartsWith p ".claude/commands/" && strEndsWith p ".md" &&
    !(strContains (String.mk (p.data.drop ".claude/commands/".length)) "/") &&
    !(strStartsWith (pathBase p) ".")

/-- `stack_files`: sorted stack documents, excluding TEMPLATE files
(validate-frontmatter.py lines 49-53). -/
def stack_files (fs : FS) : List String :=
  pysorted ((fs.paths.filter (fun p => isStackGlob p && !(strContains p "TEMPLATE"))))

/-- `skill_files` (validate-frontmatter.py line 54). -/
def skill_files (fs : FS) : List String :=
  pysorted (fs.paths.filter isSkillGlob)

/-- `STACK_REQUIRED_KEYS` (validate-frontmatter.py lines 56-64). -/
def STACK_REQUIRED_KEYS : List String :=
  ["assumes", "packages", "files", "env", "ci_placeholders", "clean", "gitignore"]

/-- `SKILL_REQUIRED_KEYS` (validate-frontmatter.py lines 65-73). -/
def SKILL_REQUIRED_KEYS : List String :=
  ["type", "reads", "stack_categories", "requires_approval", "references",
   "branch_prefix", "modifies_specs"]

/-! ## Frontmatter extraction (validate-frontmatter.py lines 35-42,
validate-semantics.py lines 53-60) -/

/-- Three dashes, the frontmatter delimiter. -/
def dash3 : List Char := ['-', '-', '-']

/-- The scan behind the lazy group of `re.match("^---\n(.*?\n)---", content,
re.DOTALL)`: the shortest prefix of the text after the opening delimiter that
ends in a newline immediately followed by three dashes. -/
def fmScan (acc : List Char) : List Char → Option (List Char)
  | [] => none
  | c :: rest =>
    if c = '\n' && dash3.isPrefixOf rest then some (c :: acc).reverse
    else fmScan (c :: acc) rest

/-- `parse_frontmatter` of both validators.  A regex miss returns Python
`None` (here `Yaml.null`); a hit hands the captured group to `yaml.safe_load`
with no exception handler, so a `yaml.YAMLError` (the `.error` case of
`safeLoad`) propagates to the caller uncaught. -/
def parse_frontmatter (safeLoad : String → Except String Yaml) (content : String) :
    Except String Yaml :=
  if (dash3 ++ ['\n']).isPrefixOf content.data then
    match fmScan [] (content.data.drop 4) with
    | none => .ok .null
    | some g1 => safeLoad (String.mk g1)
  else .ok .null

/-! ## validate-frontmatter.py checks 1-5 -/

/-- `f"[{tag}] {sf}: missing frontmatter"`. -/
def msgNoFM (tag sf : String) : String :=
  "[" ++ tag ++ "] " ++ sf ++ ": missing frontmatter"

/-- `f"[{tag}] {sf}: missing required key has-quotes-{key}"`. -/
def msgMissingKey (tag sf key : String) : String :=
  "[" ++ tag ++ "] " ++ sf ++ ": missing required key " ++ squoS ++ key ++ squoS

/-- `data is None` (our `Yaml.null` stands for Python `None`). -/
def yamlIsNull : Yaml → Bool
  | .null => true
  | _ => false

/-- The `key not in data` loop over a required-key list. -/
def keysNotIn (data : Yaml) : List String → Except String (List String)
  | [] => .ok []
  | k :: ks => do
    let b ← pyIn k data
    let rest ← keysNotIn data ks
    .ok (if b then rest else k :: rest)

/-- Checks 1 and 3 of validate-frontmatter.py are the same loop instantiated
at different key lists and tags (lines 79-88 and 104-113): parse the
frontmatter of each file, record one `missing frontmatter` diagnostic and
skip registration when it is `None`, otherwise register the document and
emit one diagnostic per missing required key.  Returns the registry
(`stack_data` / `skill_data`, in insertion order) and the diagnostics. -/
def fmRequiredCheck (tag : String) (keys : List String)
    (safeLoad : String → Except String Yaml) (fs : FS) :
    List String → Except String (List (String × Yaml) × List String)
  | [] => .ok ([], [])
  | sf :: rest => do
    let data ← parse_frontmatter safeLoad (fs.read sf)
    if yamlIsNull data then do
      let (sd, errs) ← fmRequiredCheck tag keys safeLoad fs rest
      .ok (sd, msgNoFM tag sf :: errs)
    else do
      let miss ← keysNotIn data keys
      let (sd, errs) ← fmRequiredCheck tag keys safeLoad fs rest
      .ok ((sf, data) :: sd, miss.map (msgMissingKey tag sf) ++ errs)

/-- Check 1 (stack files). -/
def check1 (safeLoad : String → Except String Yaml) (fs : FS) :
    Except String (List (String × Yaml) × List String) :=
  fmRequiredCheck "1" STACK_REQUIRED_KEYS safeLoad fs (stack_files fs)

/-- Check 3 (skill files). -/
def check3fm (safeLoad : String → Except String Yaml) (fs : FS) :
    Except String (List (String × Yaml) × List String) :=
  fmRequiredCheck "3" SKILL_REQUIRED_KEYS safeLoad fs (skill_files fs)

/-- `f"[2] {sf}: assumes has-quotes-{dep} but {dep_path} does not exist"`. -/
def msgAssumes (sf dep depPath : String) : String :=
  "[2] " ++ sf ++ ": assumes " ++ squoS ++ dep ++ squoS ++ " but " ++ depPath ++
    " does not exist"

/-- Check 2 (validate-frontmatter.py lines 94-98): every `assumes` entry of a
registered stack resolves to an existing stack file. -/
def check2 (fs : FS) : List (String × Yaml) → Except String (List String)
  | [] => .ok []
  | (sf, data) :: rest => do
    let assumesVal ← pyGetD data "assumes" (.list [])
    let deps ← pyIter assumesVal
    let errs := deps.filterMap (fun dep =>
      let depPath := ".claude/stacks/" ++ pyStr dep ++ ".md"
      if fs.isfile depPath then none else some (msgAssumes sf (pyStr dep) depPath))
    let more ← check2 fs rest
    .ok (errs ++ more)

/-- `f"[4] {sf}: references has-quotes-{ref} but file does not exist"`. -/
def msgRefMissing (sf ref : String) : String :=
  "[4] " ++ sf ++ ": references " ++ squoS ++ ref ++ squoS ++
    " but file does not exist"

/-- `os.path.exists` applied to a YAML value: only strings are meaningful
paths here (the scripts' corpora declare references as strings). -/
def pyExistsPath (fs : FS) : Yaml → Except String Bool
  | .str r => .ok (fs.isfile r)
  | _ => .error "TypeError: argument should be a str"

/-- Check 4 (validate-frontmatter.py lines 119-122): every `references` path
of a registered skill exists on disk. -/
def check4 (fs : FS) : List (String × Yaml) → Except String (List String)
  | [] => .ok []
  | (sf, data) :: rest => do
    let refsVal ← pyGetD data "references" (.list [])
    let refs ← pyIter refsVal
    let errs ← refs.foldrM (fun r acc => do
      let ex ← pyExistsPath fs r
      .ok (if ex then acc else msgRefMissing sf (pyStr r) :: acc)) []
    let more ← check4 fs rest
    .ok (errs ++ more)

/-- `f"[5] {sf}: code-writing skill missing {b} in references"` (the script
spells the two mandatory basenames out in two f-strings of this shape). -/
def msg5 (sf b : String) : String :=
  "[5] " ++ sf ++ ": code-writing skill missing " ++ b ++ " in references"

/-- `os.path.basename` applied to a YAML value (string refs only). -/
def pyBasename : Yaml → Except String String
  | .str r => .ok (pathBase r)
  | _ => .error "TypeError: argument should be a str"

/-- The basename list comprehension of check 5. -/
def basenamesOf : List Yaml → Except String (List String)
  | [] => .ok []
  | r :: rs => do
    let b ← pyBasename r
    let more ← basenamesOf rs
    .ok (b :: more)

/-- The body of check 5 for one skill (validate-frontmatter.py lines
128-138): `code-writing` skills must reference `verify.md` and
`failure-patterns.md` by basename. -/
def check5Skill (sf : String) (data : Yaml) : Except String (List String) := do
  let t ← pyGetD data "type" .null
  if !(yamlEqStr t "code-writing") then .ok []
  else do
    let refsVal ← pyGetD data "references" (.list [])
    let refs ← pyIter refsVal
    let bns ← basenamesOf refs
    let e1 := if bns.contains "verify.md" then [] else [msg5 sf "verify.md"]
    let e2 := if bns.contains "failure-patterns.md" then []
              else [msg5 sf "failure-patterns.md"]
    .ok (e1 ++ e2)

/-- Check 5 over the whole skill registry. -/
def check5 : List (String × Yaml) → Except String (List String)
  | [] => .ok []
  | (sf, data) :: rest => do
    let errs ← check5Skill sf data
    let more ← check5 rest
    .ok (errs ++ more)

/-! ## validate-frontmatter.py checks 6-10 -/

/-- `str.replace(old, new)` for a non-empty `old`: replace every occurrence,
scanning left to right (fuel = input length; one character is consumed per
step, so the fuel suffices). -/
def replaceGo (old new : List Char) : Nat → List Char → List Char
  | _, [] => []
  | 0, cs => cs
  | fuel + 1, c :: rest =>
    if old.isPrefixOf (c :: rest) then
      new ++ replaceGo old new fuel ((c :: rest).drop old.length)
    else c :: replaceGo old new fuel rest

/-- `s.replace(old, new)`. -/
def pyReplace (s old new : String) : String :=
  String.mk (replaceGo old.data new.data s.data.length s.data)

/-- Skill name from a path: `os.path.basename(f).replace(".md", "")`. -/
def skillName (f : String) : String := pyReplace (pathBase f) ".md" ""

/-- File-object line iteration (split keeping the trailing newline of every
line, as Python file iteration does). -/
def pyLinesGo (acc : List Char) : List Char → List String
  | [] => if acc.isEmpty then [] else [String.mk acc.reverse]
  | c :: rest =>
    if c = '\n' then String.mk (c :: acc).reverse :: pyLinesGo [] rest
    else pyLinesGo (c :: acc) rest

/-- Lines of a file, keepends. -/
def pyLines (s : String) : List String := pyLinesGo [] s.data

/-- `str.split()` with no argument: split on whitespace runs, no empties. -/
def pySplitWsGo (cur : List Char) : List Char → List String
  | [] => if cur.isEmpty then [] else [String.mk cur.reverse]
  | c :: rest =>
    if isPySpace c then
      if cur.isEmpty then pySplitWsGo [] rest
      else String.mk cur.reverse :: pySplitWsGo [] rest
    else pySplitWsGo (c :: cur) rest

/-- `s.split()`. -/
def pySplitWs (s : String) : List String := pySplitWsGo [] s.data

/-- `s.split(",")`: single-character separator, empties kept. -/
def splitCommaGo (cur : List Char) : List Char → List String
  | [] => [String.mk cur.reverse]
  | c :: rest =>
    if c = ',' then String.mk cur.reverse :: splitCommaGo [] rest
    else splitCommaGo (c :: cur) rest

/-- `s.split(",")`. -/
def splitComma (s : String) : List String := splitCommaGo [] s.data

/-- `s.strip()`: drop leading and trailing whitespace. -/
def pyStripWs (s : String) : String :=
  String.mk (((s.data.dropWhile isPySpace).reverse.dropWhile isPySpace).reverse)

/-- `s.lstrip("/")`. -/
def lstripSlash (s : String) : String :=
  String.mk (s.data.dropWhile (fun c => c == '/'))

/-- Index of the last occurrence of a character in a list. -/
def lastIdxOf (ch : Char) (l : List Char) : Option Nat :=
  match l.reverse.findIdx? (fun c => c == ch) with
  | none => none
  | some j => some (l.length - 1 - j)

/-- Python `repr` of a list of strings, as interpolated by the scripts'
f-strings in mismatch messages. -/
def reprStrList (l : List String) : String :=
  "[" ++ String.intercalate ", " (l.map (fun s => squoS ++ s ++ squoS)) ++ "]"

/-- The double-quote character. -/
def dquo : Char := '"'

/-- The literal lead of the `ANALYSIS_ONLY_SKILLS` line regex
`^ANALYSIS_ONLY_SKILLS="(.*)"` (prefix up to and including the opening
double quote). -/
def aosLead : List Char := ("ANALYSIS_ONLY_SKILLS=" ++ String.mk [dquo]).data

/-- `re.match` of the AOS regex against one line: after the literal lead, the
greedy dot-star captures up to the last double quote on the line (the dot
never crosses a newline). -/
def aosLineMatch (line : String) : Option String :=
  if aosLead.isPrefixOf line.data then
    let rest := line.data.drop aosLead.length
    let body := rest.takeWhile (fun c => !(c == '\n'))
    match lastIdxOf dquo body with
    | none => none
    | some j => some (String.mk (body.take j))
  else none

/-- First matching line wins (the script breaks out of the loop). -/
def aosFind : List String → Option String
  | [] => none
  | l :: ls =>
    match aosLineMatch l with
    | some g => some g
    | none => aosFind ls

/-- `f"[6] analysis-only mismatch: frontmatter={fa} vs run-skill.sh={sa}"`. -/
def msg6 (fa sa : List String) : String :=
  "[6] analysis-only mismatch: frontmatter=" ++ reprStrList fa ++
    " vs run-skill.sh=" ++ reprStrList sa

/-- The filtered skill-name comprehension of check 6 (crashes like Python if
a registered skill's data is not a dict). -/
def check6Names : List (String × Yaml) → Except String (List String)
  | [] => .ok []
  | (sf, data) :: rest => do
    let t ← pyGetD data "type" .null
    let more ← check6Names rest
    .ok (if yamlEqStr t "analysis-only" then skillName sf :: more else more)

/-- Check 6 (validate-frontmatter.py lines 144-164): frontmatter
`analysis-only` skills must match `ANALYSIS_ONLY_SKILLS` in
`scripts/run-skill.sh`. -/
def check6 (fs : FS) (skillData : List (String × Yaml)) : Except String (List String) := do
  let fa := pysorted (← check6Names skillData)
  let sa :=
    if fs.isfile "scripts/run-skill.sh" then
      match aosFind (pyLines (fs.read "scripts/run-skill.sh")) with
      | some g => pysorted (pySplitWs g)
      | none => []
    else []
  .ok (if fa == sa then [] else [msg6 fa sa])

/-- The literal `run-skill\.sh` of the check 7 findall regex. -/
def runSkillLit : List Char := "run-skill.sh".data

/-- One attempt of `run-skill\.sh\s+([a-z][-a-z]*)` at the current position:
the literal, at least one whitespace character (greedy, then the next
character must be a lowercase letter), then the greedy `[-a-z]*` tail. -/
def try7 (cs : List Char) : Option (String × List Char) :=
  if runSkillLit.isPrefixOf cs then
    let r := cs.drop runSkillLit.length
    let ws := r.takeWhile isPySpace
    if ws.isEmpty then none
    else
      match r.drop ws.length with
      | [] => none
      | d :: r3 =>
        if isLowerAZ d then
          let run := r3.takeWhile (fun c => isLowerAZ c || c == '-')
          some (String.mk (d :: run), r3.drop run.length)
        else none
  else none

/-- `re.findall` scanning for check 7 (non-overlapping, resume after each
match, advance one character on failure). -/
def findall7Go : Nat → List Char → List String
  | 0, _ => []
  | _, [] => []
  | fuel + 1, c :: rest =>
    match try7 (c :: rest) with
    | some (name, after) => name :: findall7Go fuel after
    | none => findall7Go fuel rest

/-- `re.findall(r"run-skill\.sh\s+([a-z][-a-z]*)", content)`. -/
def findall7 (content : String) : List String :=
  findall7Go content.data.length content.data

/-- `f"[7] .claude/commands/{skill}.md has no Makefile target"`. -/
def msg7NoTarget (skill : String) : String :=
  "[7] .claude/commands/" ++ skill ++ ".md has no Makefile target"

/-- `f"[7] Makefile target has-quotes-{skill} has no .claude/commands/{skill}.md"`. -/
def msg7NoCommand (skill : String) : String :=
  "[7] Makefile target " ++ squoS ++ skill ++ squoS ++ " has no .claude/commands/" ++
    skill ++ ".md"

/-- Check 7 (validate-frontmatter.py lines 170-184): Makefile skill targets
and command documents are 1:1. -/
def check7 (fs : FS) (skillFiles : List String) : List String :=
  if fs.isfile "Makefile" then
    let makefileSkills := pysorted (dedupFirst (findall7 (fs.read "Makefile")))
    let commandSkills := pysorted (skillFiles.map skillName)
    (commandSkills.filterMap (fun s =>
      if makefileSkills.contains s then none else some (msg7NoTarget s))) ++
    (makefileSkills.filterMap (fun s =>
      if commandSkills.contains s then none else some (msg7NoCommand s)))
  else []

/-- The literal lead of the check 8 regex
`outside a defined skill \((/[a-z comma space slash hyphen]+)\)`. -/
def rule0Lead : List Char := "outside a defined skill (".data

/-- The character class `[a-z comma space slash hyphen]`. -/
def isRule0Char (c : Char) : Bool :=
  isLowerAZ c || c == ',' || c == ' ' || c == '/' || c == '-'

/-- One attempt of the check 8 regex at the current position. -/
def try8 (cs : List Char) : Option String :=
  if rule0Lead.isPrefixOf cs then
    match cs.drop rule0Lead.length with
    | [] => none
    | c :: r =>
      if c = '/' then
        let run := r.takeWhile isRule0Char
        if run.isEmpty then none
        else if (r.drop run.length).head? == some ')' then
          some (String.mk ('/' :: run))
        else none
      else none
  else none

/-- `re.search` scanning for check 8 (first position where the whole pattern
matches). -/
def search8Go : Nat → List Char → Option String
  | 0, _ => none
  | _, [] => none
  | fuel + 1, c :: rest =>
    match try8 (c :: rest) with
    | some g => some g
    | none => search8Go fuel rest

/-- `re.search(r"outside a defined skill \((/[a-z comma space slash hyphen]+)\)", content)`. -/
def search8 (content : String) : Option String :=
  search8Go content.data.length content.data

/-- `f"[8] CLAUDE.md Rule 0 skill list mismatch: claude.md={c} vs actual={a}"`. -/
def msg8Mismatch (c a : List String) : String :=
  "[8] CLAUDE.md Rule 0 skill list mismatch: claude.md=" ++ reprStrList c ++
    " vs actual=" ++ reprStrList a

/-- The fixed message of the check 8 miss branch. -/
def msg8NoPattern : String :=
  "[8] Could not find Rule 0 skill list pattern in CLAUDE.md"

/-- Check 8 (validate-frontmatter.py lines 190-210): the CLAUDE.md Rule 0
parenthetical skill list matches the actual skill filenames. -/
def check8 (fs : FS) (skillFiles : List String) : List String :=
  if fs.isfile "CLAUDE.md" then
    match search8 (fs.read "CLAUDE.md") with
    | some g =>
      let claudeSkills := pysorted ((splitComma g).map (fun s =>
        lstripSlash (pyStripWs s)))
      let actualSkills := pysorted (skillFiles.map skillName)
      if claudeSkills == actualSkills then [] else [msg8Mismatch claudeSkills actualSkills]
    | none => [msg8NoPattern]
  else []

/-- `f"[9] ci_placeholders key has-quotes-{key} not found in {ci_yml_path}"`. -/
def msg9 (key : String) : String :=
  "[9] ci_placeholders key " ++ squoS ++ key ++ squoS ++
    " not found in .github/workflows/ci.yml"

/-- The keys iterated from `data.get("ci_placeholders", {})` of one stack,
each later used in a string containment test (a non-string key raises
`TypeError` there, as in Python). -/
def placeholderKeys : List (String × Yaml) → Except String (List String)
  | [] => .ok []
  | (_, data) :: rest => do
    let cp ← pyGetD data "ci_placeholders" (.map [])
    let ks ← pyIter cp
    let strs ← ks.foldrM (fun k acc =>
      match k with
      | .str s => .ok (s :: acc)
      | _ => .error "TypeError: ci_placeholders key is not a str") []
    let more ← placeholderKeys rest
    .ok (strs ++ more)

/-- Check 9 (validate-frontmatter.py lines 216-228): the union of
`ci_placeholders` keys appears verbatim in the CI pipeline file. -/
def check9 (fs : FS) (stackData : List (String × Yaml)) : Except String (List String) :=
  if fs.isfile ".github/workflows/ci.yml" then do
    let keys ← placeholderKeys stackData
    let ks := pysorted (dedupFirst keys)
    .ok (ks.filterMap (fun k =>
      if strContains (fs.read ".github/workflows/ci.yml") k then none
      else some (msg9 k)))
  else .ok []

/-- Three single quotes, the TOML multiline-literal delimiter matched by the
check 10 findall regex. -/
def tquo : List Char := [squo, squo, squo]

/-- The lazy body scan of `r"'''(.+?)'''"`: at least one character already
consumed, stop at the earliest closing delimiter, fail on a newline (the
un-flagged dot does not cross lines) or at end of input. -/
def tqBodyGo : List Char → Nat → List Char → Option (List Char × List Char)
  | acc, fuel, cs =>
    if tquo.isPrefixOf cs then some (acc.reverse, cs.drop 3)
    else
      match fuel, cs with
      | _, [] => none
      | 0, _ :: _ => none
      | fuel' + 1, c :: rest =>
        if c = '\n' then none
        else tqBodyGo (c :: acc) fuel' rest

/-- One attempt of the check 10 pattern at the current position. -/
def tryTQ (cs : List Char) : Option (String × List Char) :=
  if tquo.isPrefixOf cs then
    match cs.drop 3 with
    | [] => none
    | c :: rest =>
      if c = '\n' then none
      else (tqBodyGo [c] rest.length rest).map (fun p => (String.mk p.1, p.2))
  else none

/-- `re.findall` scanning for check 10. -/
def findallTQGo : Nat → List Char → List String
  | 0, _ => []
  | _, [] => []
  | fuel + 1, c :: rest =>
    match tryTQ (c :: rest) with
    | some (g, after) => g :: findallTQGo fuel after
    | none => findallTQGo fuel rest

/-- `re.findall(r"'''(.+?)'''", gitleaks_content)`. -/
def findallTQ (content : String) : List String :=
  findallTQGo content.data.length content.data

/-- The inner pattern loop of check 10 (lines 251-258): `try: re.search`
matches break the loop, `re.error` for an invalid pattern is passed over
silently. -/
def gitleaksCovered (search : String → String → Except Unit Bool)
    (patterns : List String) (val : String) : Bool :=
  match patterns with
  | [] => false
  | p :: ps =>
    match search p val with
    | .ok true => true
    | .ok false => gitleaksCovered search ps val
    | .error _ => gitleaksCovered search ps val

/-- `f"[10] ci_placeholder value has-quotes-{val} not matched by any .gitleaks.toml allowlist pattern"`. -/
def msg10 (val : String) : String :=
  "[10] ci_placeholder value " ++ squoS ++ val ++ squoS ++
    " not matched by any .gitleaks.toml allowlist pattern"

/-- The value collection of check 10 (lines 241-248): all string renderings
of `ci_placeholders` values across stacks, URLs skipped. -/
def placeholderVals : List (String × Yaml) → Except String (List String)
  | [] => .ok []
  | (_, data) :: rest => do
    let cp ← pyGetD data "ci_placeholders" (.map [])
    let vs ← pyValues cp
    let strs := (vs.map pyStr).filter (fun v =>
      !(strStartsWith v "https://") && !(strStartsWith v "http://"))
    let more ← placeholderVals rest
    .ok (strs ++ more)

/-- The per-value emission loop of check 10 (lines 250-263). -/
def check10Emit (search : String → String → Except Unit Bool)
    (patterns : List String) (vals : List String) : List String :=
  vals.filterMap (fun v =>
    if gitleaksCovered search patterns v then none else some (msg10 v))

/-- Check 10 (validate-frontmatter.py lines 234-263): all non-URL
`ci_placeholders` values are covered by some `.gitleaks.toml` allowlist
pattern. -/
def check10 (search : String → String → Except Unit Bool) (fs : FS)
    (stackData : List (String × Yaml)) : Except String (List String) :=
  if fs.isfile ".gitleaks.toml" then do
    let patterns := findallTQ (fs.read ".gitleaks.toml")
    let vals ← placeholderVals stackData
    .ok (check10Emit search patterns (pysorted (dedupFirst vals)))
  else .ok []

/-- The summary of validate-frontmatter.py (lines 269-275): exit 1 when any
diagnostics were collected, else exit 0. -/
def vfSummary (errs : List String) : Nat := if errs.isEmpty then 0 else 1

/-- A whole run of validate-frontmatter.py: the ten checks in program order,
diagnostics concatenated in emission order.  The first component is the
list of diagnostics collected before the run ended; the second is `.ok code`
for a run that reached the summary and `.error e` for a run killed by an
uncaught exception (in which case the interpreter exits with status 1). -/
def runVF (safeLoad : String → Except String Yaml)
    (search : String → String → Except Unit Bool) (fs : FS) :
    List String × Except String Nat :=
  match check1 safeLoad fs with
  | .error e => ([], .error e)
  | .ok (stackData, e1) =>
    match check2 fs stackData with
    | .error e => (e1, .error e)
    | .ok e2 =>
      match check3fm safeLoad fs with
      | .error e => (e1 ++ e2, .error e)
      | .ok (skillData, e3) =>
        match check4 fs skillData with
        | .error e => (e1 ++ e2 ++ e3, .error e)
        | .ok e4 =>
          match check5 skillData with
          | .error e => (e1 ++ e2 ++ e3 ++ e4, .error e)
          | .ok e5 =>
            match check6 fs skillData with
            | .error e => (e1 ++ e2 ++ e3 ++ e4 ++ e5, .error e)
            | .ok e6 =>
              let e7 := check7 fs (skill_files fs)
              let e8 := check8 fs (skill_files fs)
              match check9 fs stackData with
              | .error e => (e1 ++ e2 ++ e3 ++ e4 ++ e5 ++ e6 ++ e7 ++ e8, .error e)
              | .ok e9 =>
                match check10 search fs stackData with
                | .error e =>
                    (e1 ++ e2 ++ e3 ++ e4 ++ e5 ++ e6 ++ e7 ++ e8 ++ e9, .error e)
                | .ok e10 =>
                  let errs := e1 ++ e2 ++ e3 ++ e4 ++ e5 ++ e6 ++ e7 ++ e8 ++ e9 ++ e10
                  (errs, .ok (vfSummary errs))

/-- The interpreter's exit status for a run outcome: a run that reached the
summary exits with the code it chose; an uncaught exception terminates
Python with status 1. -/
def processStatus : List String × Except String Nat → Nat
  | (_, .ok c) => c
  | (_, .error _) => 1

/-! ## validate-semantics.py: shared extraction primitives (lines 53-82) -/

/-- `stack_contents`: raw content of every stack file, read unconditionally
before any check runs (validate-semantics.py lines 97-100). -/
def stack_contents (fs : FS) : List (String × String) :=
  (stack_files fs).map (fun f => (f, fs.read f))

/-- Three backticks, the fence delimiter of
`re.compile(r"^BT BT BT(\w+)?\s*\n(.*?)^BT BT BT", re.MULTILINE | re.DOTALL)`. -/
def fence : List Char := [btick, btick, btick]

/-- The opening-fence part of the pattern at a line-start position: three
backticks, an optional greedy word-character tag, then `\s*\n` — a greedy
whitespace run that must backtrack to end on a newline, so the match
consumes the whitespace up to and including the *last* newline of the run.
Returns the language tag and the remaining input (the body start). -/
def tryOpenFence (cs : List Char) : Option (String × List Char) :=
  match cs with
  | b1 :: b2 :: b3 :: r =>
    if b1 = btick && b2 = btick && b3 = btick then
      let lang := r.takeWhile isWordChar
      let r2 := r.drop lang.length
      let ws := r2.takeWhile isPySpace
      match lastIdxOf '\n' ws with
      | none => none
      | some j => some (String.mk lang, r2.drop (j + 1))
    else none
  | _ => none

/-- The lazy body part `(.*?)^BT BT BT`: the shortest body such that the
closing fence sits at a line start (DOTALL lets the body cross lines).
Returns the body and the input after the closing fence. -/
def findClose : Bool → List Char → Option (List Char × List Char)
  | atStart, cs =>
    if atStart && fence.isPrefixOf cs then some ([], cs.drop 3)
    else
      match cs with
      | [] => none
      | c :: rest =>
        match findClose (c == '\n') rest with
        | some (b, a) => some (c :: b, a)
        | none => none

/-- A raw fenced-block match: language tag, body, and the absolute character
offset of the opening fence (`m.start()`). -/
structure RawBlock where
  lang : String
  body : List Char
  startPos : Nat
deriving Repr, DecidableEq

/-- The `finditer` scan: try the pattern at every line-start position,
resume after the end of each match (non-overlapping), advance one character
on failure.  Each step consumes at least one character, so fuel equal to the
input length never runs out. -/
def scanGo : Nat → List Char → Nat → Bool → List RawBlock
  | 0, _, _, _ => []
  | _, [], _, _ => []
  | fuel + 1, c :: rest, pos, atStart =>
    match (if atStart then tryOpenFence (c :: rest) else none) with
    | some (lang, afterOpen) =>
      match findClose true afterOpen with
      | some (body, afterClose) =>
        ⟨lang, body, pos⟩ ::
          scanGo fuel afterClose (pos + ((c :: rest).length - afterClose.length)) false
      | none => scanGo fuel rest (pos + 1) (c = '\n')
    | none => scanGo fuel rest (pos + 1) (c = '\n')

/-- All raw fenced-block matches of a document. -/
def scanBlocks (content : String) : List RawBlock :=
  scanGo content.data.length content.data 0 true

/-- One extracted block as the script returns it: `{"lang": …, "code": …,
"start_line": …}`. -/
structure Block where
  lang : String
  code : String
  start_line : Nat
deriving Repr, DecidableEq

/-- `if lang_filter and lang not in lang_filter: continue` — note that both
`None` and an *empty* set are falsy, so an empty filter set filters
nothing. -/
def langFilterSkip (langFilter : Option (List String)) (lang : String) : Bool :=
  match langFilter with
  | none => false
  | some l => if l.isEmpty then false else !(l.contains lang)

/-- `extract_code_blocks` (validate-semantics.py lines 63-77).
`start_line = content[: m.start()].count("\n") + 1`. -/
def extract_code_blocks (content : String) (langFilter : Option (List String)) :
    List Block :=
  (scanBlocks content).filterMap (fun rb =>
    if langFilterSkip langFilter rb.lang then none
    else some ⟨rb.lang, String.mk rb.body, (content.data.take rb.startPos).count '\n' + 1⟩)

/-! ## validate-semantics.py: Check 3, fixture validation (lines 239-340) -/

/-- `glob(os.path.join("tests/fixtures", "*.yaml"))` membership. -/
def isFixtureGlob (p : String) : Bool :=
  strStartsWith p "tests/fixtures/" && strEndsWith p ".yaml" &&
    !(strContains (String.mk (p.data.drop "tests/fixtures/".length)) "/") &&
    !(strStartsWith (pathBase p) ".")

/-- `fixture_files` (line 241). -/
def fixture_files (fs : FS) : List String :=
  pysorted (fs.paths.filter isFixtureGlob)

/-- `REQUIRED_IDEA_FIELDS` (validate-semantics.py lines 108-122). -/
def REQUIRED_IDEA_FIELDS : List String :=
  ["name", "title", "owner", "problem", "solution", "target_user",
   "distribution", "pages", "features", "primary_metric", "target_value",
   "measurement_window", "stack"]

/-- `re.match(r"^[a-z][a-z0-9-]*$", s)` as a boolean: anchored at the start,
greedy class run, and `$` accepts either the end of the string or a position
just before a final newline. -/
def sem_name_match (s : String) : Bool :=
  match s.data with
  | [] => false
  | c :: rest =>
    isLowerAZ c &&
    (let k := (rest.takeWhile isNameClsChar).length
     (k == rest.length) || ((k + 1 == rest.length) && (rest.getLast? == some '\n')))

/-- `re.fullmatch(r"[a-z][a-z0-9-]*", s)` as a boolean (validate-idea.py line
23): the whole string must be consumed. -/
def idea_name_fullmatch (s : String) : Bool :=
  match s.data with
  | [] => false
  | c :: rest => isLowerAZ c && rest.all isNameClsChar

/-- Shared shape of every check 3 message: `f"[3] {ff}: …"`. -/
def mkMsg3 (ff tail : String) : String := "[3] " ++ ff ++ ": " ++ tail

/-- `f"[3] {fixture_dir}: no fixture files found"`. -/
def msg3NoFixtures : String := "[3] tests/fixtures: no fixture files found"

/-- `f"[3] {ff}: invalid YAML: {e}"`. -/
def msgBadYaml (ff e : String) : String := mkMsg3 ff ("invalid YAML: " ++ e)

/-- `f"[3] {ff}: fixture must be a YAML mapping"`. -/
def msg3Mapping (ff : String) : String := mkMsg3 ff "fixture must be a YAML mapping"

/-- `f"[3] {ff}: missing required key has-quotes-{key}"`. -/
def msg3Key (ff k : String) : String :=
  mkMsg3 ff ("missing required key " ++ squoS ++ k ++ squoS)

/-- `f"[3] {ff}: quoted-idea must be a mapping"`. -/
def msg3IdeaMap (ff : String) : String :=
  mkMsg3 ff (squoS ++ "idea" ++ squoS ++ " must be a mapping")

/-- The idea.name format message (lines 271-274). -/
def msg3Name (ff nm : String) : String :=
  mkMsg3 ff ("idea.name " ++ squoS ++ nm ++ squoS ++
    " must be lowercase, start with a letter, and use only a-z, 0-9, hyphens")

/-- `f"[3] {ff}: idea.{field} is missing or empty"`. -/
def msg3Field (ff fld : String) : String :=
  mkMsg3 ff ("idea." ++ fld ++ " is missing or empty")

/-- The landing-page message (line 288). -/
def msg3Landing (ff : String) : String :=
  mkMsg3 ff ("idea.pages must include a " ++ squoS ++ "landing" ++ squoS ++ " entry")

/-- The payment coverage-gap message (lines 298-301). -/
def msg3Pay (ff : String) : String :=
  mkMsg3 ff "assertions.payment_events_required is true but idea.stack has no payment entry"

/-- The skippable signup-event message (lines 313-316). -/
def msg3Signup (ff ev : String) : String :=
  mkMsg3 ff ("no signup page but " ++ squoS ++ ev ++ squoS ++
    " not in assertions.skippable_events")

/-- The min_pages message (lines 322-325). -/
def msg3Min (ff : String) (n : Nat) (mp : Yaml) : String :=
  mkMsg3 ff ("idea has " ++ toString n ++ " page(s) but assertions.min_pages is " ++
    pyStr mp)

/-- The payment_funnel message (lines 334-337). -/
def msg3PFNonEmpty (ff : String) : String :=
  mkMsg3 ff "events.payment_funnel is non-empty but idea.stack has no payment entry"

/-- `isinstance(p, dict) and p.get("name") == nm` for a page entry. -/
def pageNamed (p : Yaml) (nm : String) : Bool :=
  match p with
  | .map pk => yamlEqStr (dictGetD pk "name" .null) nm
  | _ => false

/-- The signup-skippable loop (lines 310-316); `ev not in skippable` raises
`TypeError` on a non-container, like Python. -/
def signupErrs (ff : String) (skippable : Yaml) : Except String (List String) := do
  let b1 ← pyIn "signup_start" skippable
  let b2 ← pyIn "signup_complete" skippable
  .ok ((if b1 then [] else [msg3Signup ff "signup_start"]) ++
       (if b2 then [] else [msg3Signup ff "signup_complete"]))

/-- `len(pages) < min_pages`: Python `<` between an int and the min_pages
value (bools compare as 0/1, anything else raises `TypeError`). -/
def pyLtNat (n : Nat) : Yaml → Except String Bool
  | .int m => .ok (decide ((n : Int) < m))
  | .bool b => .ok (decide ((n : Int) < (if b then 1 else 0)))
  | _ => .error "TypeError: unsupported operand types for comparison"

/-- The min_pages block (lines 318-325). -/
def minPagesErr (ff : String) (pages mp : Yaml) : Except String (List String) :=
  match mp with
  | .null => .ok []
  | _ =>
    match pages with
    | .list pl => do
      let lt ← pyLtNat pl.length mp
      .ok (if lt then [msg3Min ff pl.length mp] else [])
    | _ => .ok []

/-- The events block (lines 327-337).  `has_payment` is a loop-carried Python
local: when the current fixture's `assertions` is not a dict the name keeps
whatever value the *previous* iteration bound (or is unbound, a `NameError`,
on the first such fixture) — hence the `Option Bool` argument. -/
def eventsErrsFx (ff : String) (events : Yaml) (hp : Option Bool) :
    Except String (List String) :=
  match events with
  | .map ekvs =>
    match hp with
    | none => .error "NameError: name has_payment is not defined"
    | some hpb =>
      if !hpb then
        if yamlTruthy (dictGetD ekvs "payment_funnel" (.list [])) then
          .ok [msg3PFNonEmpty ff]
        else .ok []
      else .ok []
  | _ => .ok []

/-- The required top-level key loop of check 3 (lines 259-261). -/
def keyErrs3 (ff : String) (fkvs : List (String × Yaml)) : List String :=
  ["idea", "events", "assertions"].filterMap (fun k =>
    if dictHasKey fkvs k then none else some (msg3Key ff k))

/-- The idea.name format check (lines 268-274). -/
def nameErrs3 (ff : String) (nameVal : Yaml) : List String :=
  if sem_name_match (pyStr nameVal) then [] else [msg3Name ff (pyStr nameVal)]

/-- The required idea field loop (lines 276-279): `if not idea.get(field)`. -/
def fieldErrs3 (ff : String) (ikvs : List (String × Yaml)) : List String :=
  REQUIRED_IDEA_FIELDS.filterMap (fun fld =>
    if yamlTruthy (dictGetD ikvs fld .null) then none else some (msg3Field ff fld))

/-- The landing-page check (lines 281-288), only applied when `pages` is a
list. -/
def landingErrs3 (ff : String) (pages : Yaml) : List String :=
  match pages with
  | .list pl => if pl.any (fun p => pageNamed p "landing") then []
                else [msg3Landing ff]
  | _ => []

/-- `has_payment = "payment" in stack if isinstance(stack, dict) else False`
(line 295). -/
def stackHasPayment (stackVal : Yaml) : Bool :=
  match stackVal with
  | .map skvs => dictHasKey skvs "payment"
  | _ => false

/-- `if payment_required and not has_payment` (lines 296-301). -/
def payErrs3 (ff : String) (paymentRequired : Yaml) (hasPayment : Bool) : List String :=
  if yamlTruthy paymentRequired && !hasPayment then [msg3Pay ff] else []

/-- `has_signup` (lines 304-308). -/
def hasSignupPage (pages : Yaml) : Bool :=
  match pages with
  | .list pl => pl.any (fun p => pageNamed p "signup")
  | _ => false

/-- `if not has_signup:` then the skippable loop (lines 310-316). -/
def signupBlock (ff : String) (hasSignup : Bool) (skippable : Yaml) :
    Except String (List String) :=
  if hasSignup then .ok [] else signupErrs ff skippable

/-- The check 3 body for one successfully decoded fixture (validate-semantics.py
lines 254-337), in program order: top-level keys, idea mapping, name format,
required idea fields, landing page, assertions (payment coverage, skippable
signup events, min_pages), events.  Returns the diagnostics of this fixture
and the value of `has_payment` left behind for the next iteration. -/
def fx3Body (ff : String) (fixture : Yaml) (hp0 : Option Bool) :
    Except String (List String × Option Bool) :=
  match fixture with
  | .map fkvs =>
    match dictGetD fkvs "idea" (.map []) with
    | .map ikvs =>
      let pages := dictGetD ikvs "pages" (.list [])
      match dictGetD fkvs "assertions" (.map []) with
      | .map akvs => do
        let hasPayment := stackHasPayment (dictGetD ikvs "stack" (.map []))
        let eSignup ← signupBlock ff (hasSignupPage pages)
                        (dictGetD akvs "skippable_events" (.list []))
        let eMin ← minPagesErr ff pages (dictGetD akvs "min_pages" .null)
        let eEvents ← eventsErrsFx ff (dictGetD fkvs "events" (.map [])) (some hasPayment)
        .ok (keyErrs3 ff fkvs ++ nameErrs3 ff (dictGetD ikvs "name" (.str "")) ++
             fieldErrs3 ff ikvs ++ landingErrs3 ff pages ++
             payErrs3 ff (dictGetD akvs "payment_events_required" (.bool false))
               hasPayment ++
             eSignup ++ eMin ++ eEvents,
             some hasPayment)
      | _ => do
        let eEvents ← eventsErrsFx ff (dictGetD fkvs "events" (.map [])) hp0
        .ok (keyErrs3 ff fkvs ++ nameErrs3 ff (dictGetD ikvs "name" (.str "")) ++
             fieldErrs3 ff ikvs ++ landingErrs3 ff pages ++ eEvents, hp0)
    | _ => .ok (keyErrs3 ff fkvs ++ [msg3IdeaMap ff], hp0)
  | _ => .ok ([msg3Mapping ff], hp0)

/-- The fixture loop (lines 246-252 wrap each `yaml.safe_load` in
`try/except yaml.YAMLError`): a fixture whose YAML cannot be decoded yields
one `invalid YAML` diagnostic and the loop continues with the next file. -/
def fx3Loop (safeLoad : String → Except String Yaml) (fs : FS) :
    Option Bool → List String → Except String (List String)
  | _, [] => .ok []
  | hp, ff :: rest =>
    match safeLoad (fs.read ff) with
    | .error e => (fx3Loop safeLoad fs hp rest).map (fun l => msgBadYaml ff e :: l)
    | .ok fixture => do
      let (errs, hp2) ← fx3Body ff fixture hp
      let more ← fx3Loop safeLoad fs hp2 rest
      .ok (errs ++ more)

/-- Check 3 of validate-semantics.py (lines 239-340): skipped entirely when
the fixture directory does not exist; an empty directory is one diagnostic;
otherwise the per-fixture loop. -/
def check3Sem (safeLoad : String → Except String Yaml) (fs : FS) :
    Except String (List String) :=
  if fs.isdir "tests/fixtures" then
    let ffs := fixture_files fs
    let head := if ffs.isEmpty then [msg3NoFixtures] else []
    (fx3Loop safeLoad fs none ffs).map (fun l => head ++ l)
  else .ok []

/-! ## validate-events.py (whole script) -/

/-- `f'missing required key "{key}"'`. -/
def msgEvKey (key : String) : String :=
  "missing required key \"" ++ key ++ "\""

/-- `f'{section}[{i}] missing "event"'` / `… "trigger"`. -/
def msgEvField (sec : String) (i : Nat) (fld : String) : String :=
  sec ++ "[" ++ toString i ++ "] missing \"" ++ fld ++ "\""

/-- `value[key]` subscription. -/
def pySubscript (y : Yaml) (k : String) : Except String Yaml :=
  match y with
  | .map kvs =>
    match dictGet? kvs k with
    | some v => .ok v
    | none => .error "KeyError"
  | _ => .error "TypeError: object is not subscriptable with a str"

/-- The `enumerate(data[section])` entry loop of validate-events.py
(lines 19-23). -/
def eventsEntryErrs (sec : String) : Nat → List Yaml → Except String (List String)
  | _, [] => .ok []
  | i, ev :: rest => do
    let b1 ← pyIn "event" ev
    let b2 ← pyIn "trigger" ev
    let more ← eventsEntryErrs sec (i + 1) rest
    .ok ((if b1 then [] else [msgEvField sec i "event"]) ++
         (if b2 then [] else [msgEvField sec i "trigger"]) ++ more)

/-- `if section in data and data[section]:` then the entry loop
(lines 17-23); `payment_funnel` is scanned even though it is not a required
key, and `custom_events` entries are never scanned. -/
def eventsSectionErrs (data : Yaml) (sec : String) : Except String (List String) := do
  let present ← pyIn sec data
  if present then do
    let v ← pySubscript data sec
    if yamlTruthy v then do
      let items ← pyIter v
      eventsEntryErrs sec 0 items
    else .ok []
  else .ok []

/-- The module-level validation of validate-events.py (lines 8-23). -/
def eventsErrors (data : Yaml) : Except String (List String) :=
  if !(yamlTruthy data) then .ok ["EVENTS.yaml is empty"]
  else do
    let b1 ← pyIn "standard_funnel" data
    let b2 ← pyIn "custom_events" data
    let e1 := (if b1 then [] else [msgEvKey "standard_funnel"]) ++
              (if b2 then [] else [msgEvKey "custom_events"])
    let e2 ← eventsSectionErrs data "standard_funnel"
    let e3 ← eventsSectionErrs data "payment_funnel"
    .ok (e1 ++ e2 ++ e3)

/-- The exit behaviour of validate-events.py (lines 25-29): `sys.exit(1)` on
any error, otherwise the script falls off the end (status 0). -/
def eventsExit (data : Yaml) : Except String Nat := do
  let errs ← eventsErrors data
  .ok (if errs.isEmpty then 0 else 1)

/-! ## validate-idea.py: the name-format gate (lines 21-29) -/

/-- `re.fullmatch(r"[a-z][a-z0-9-]*", data.get("name", ""))`: `true` means
the gate passes; `false` makes the script print an error and exit 1
(`re.fullmatch` raises `TypeError` on a non-string). -/
def ideaNameGate (data : Yaml) : Except String Bool := do
  let nm ← pyGetD data "name" (.str "")
  match nm with
  | .str s => .ok (idea_name_fullmatch s)
  | _ => .error "TypeError: expected string or bytes-like object"

/-! ## Concrete collaborator stubs used by witnesses and counterexamples -/

/-- The message `yaml.safe_load` raises on an unclosed flow collection. -/
def stubFlowErr : String :=
  "while parsing a flow node, expected the node content, but found end of stream"

/-- A concrete stand-in for the external `yaml.safe_load`, adequate for the
tiny documents used in witnesses: a document containing a flow-collection
opener is rejected the way `yaml.safe_load` rejects an unclosed flow node,
a whitespace-only document is `null`, and otherwise the document is a
mapping of `key: value` lines with string values. -/
def yamlStub (s : String) : Except String Yaml :=
  if s.data.any (fun c => c = '[' || c = '\x7b') then .error stubFlowErr
  else
    let lines := ((pyLines s).map pyStripWs).filter (fun l => !(l == ""))
    if lines.isEmpty then .ok .null
    else .ok (.map (lines.filterMap (fun l =>
      let k := l.data.takeWhile (fun c => !(c == ':'))
      if k.length == l.data.length then none
      else some (String.mk k,
        .str (String.mk ((l.data.drop (k.length + 1)).dropWhile (fun c => c == ' ')))))))

/-- A regex-engine stub whose searches never match (check 10 is not reached
in the runs that use it). -/
def reStubFalse : String → String → Except Unit Bool := fun _ _ => .ok false

/-! ## Helper lemmas -/

theorem mkMsg3_inj_tail {ff t1 t2 : String} (h : mkMsg3 ff t1 = mkMsg3 ff t2) :
    t1 = t2 := by
  have hd := congrArg String.data h
  simp only [mkMsg3, String.data_append, List.append_assoc] at hd
  exact String.ext (List.append_cancel_left (List.append_cancel_left
    (List.append_cancel_left hd)))

theorem mkMsg3_ne_of_head {ff t1 t2 : String}
    (h : t1.data.head? ≠ t2.data.head?) : mkMsg3 ff t1 ≠ mkMsg3 ff t2 :=
  fun heq => h (by rw [mkMsg3_inj_tail heq])

theorem charsInfix_of_infix {n h : List Char} (hi : n <:+: h) :
    charsInfix n h = true := by
  induction h with
  | nil =>
    have : n = [] := by simpa using hi
    simp [charsInfix, this]
  | cons c rest ih =>
    rcases List.infix_cons_iff.mp hi with h1 | h2
    · simp [charsInfix, List.isPrefixOf_iff_prefix.mpr h1]
    · simp [charsInfix, ih h2]

theorem msg10_inj {a b : String} (h : msg10 a = msg10 b) : a = b := by
  have hd := congrArg String.data h
  simp only [msg10, String.data_append, List.append_assoc] at hd
  have h1 := List.append_cancel_left (List.append_cancel_left hd)
  rw [← List.append_assoc a.data, ← List.append_assoc b.data] at h1
  exact String.ext (List.append_cancel_right
    (List.append_cancel_right h1))

/-! ## Claim C10 -/

/-- Claim C10: during allowlist coverage checking (check 10 of
validate-frontmatter.py), an allowlist entry that is not a syntactically
valid regular expression is silently skipped — the `re.error` handler makes
it match nothing and never crash — so a placeholder value counts as covered
(and produces no diagnostic) exactly when at least one syntactically valid
pattern matches it. -/
theorem c10_allowlist_coverage :
    (∀ (search : String → String → Except Unit Bool) (patterns : List String)
       (val : String),
       gitleaksCovered search patterns val = true ↔
         ∃ p ∈ patterns, search p val = .ok true) ∧
    (∀ (search : String → String → Except Unit Bool) (patterns : List String)
       (vals : List String) (val : String),
       msg10 val ∈ check10Emit search patterns vals ↔
         (val ∈ vals ∧ gitleaksCovered search patterns val = false)) := by
  have hcov : ∀ (search : String → String → Except Unit Bool)
      (patterns : List String) (val : String),
      gitleaksCovered search patterns val = true ↔
        ∃ p ∈ patterns, search p val = .ok true := by
    intro search patterns val
    induction patterns with
    | nil => simp [gitleaksCovered]
    | cons p ps ih =>
      cases hs : search p val with
      | error e => simp [gitleaksCovered, hs, ih]
      | ok b =>
        cases b with
        | true => simp [gitleaksCovered, hs]
        | false =>
          simp only [gitleaksCovered, hs, ih, List.mem_cons]
          constructor
          · rintro ⟨q, hq, hqv⟩; exact ⟨q, Or.inr hq, hqv⟩
          · rintro ⟨q, hq | hq, hqv⟩
            · rw [hq] at hqv; rw [hs] at hqv; cases hqv
            · exact ⟨q, hq, hqv⟩
  have hmem : ∀ (search : String → String → Except Unit Bool)
      (patterns : List String) (vals : List String) (x : String),
      x ∈ check10Emit search patterns vals ↔
        ∃ v ∈ vals, gitleaksCovered search patterns v = false ∧ x = msg10 v := by
    intro search patterns vals x
    simp only [check10Emit, List.mem_filterMap]
    constructor
    · rintro ⟨v, hv, hfv⟩
      cases hc : gitleaksCovered search patterns v with
      | true => rw [hc] at hfv; simp at hfv
      | false =>
        rw [hc] at hfv
        simp at hfv
        exact ⟨v, hv, hc, hfv.symm⟩
    · rintro ⟨v, hv, hc, hx⟩
      exact ⟨v, hv, by rw [hc]; simp [hx]⟩
  refine ⟨hcov, ?_⟩
  intro search patterns vals val
  constructor
  · intro h
    rcases (hmem search patterns vals (msg10 val)).mp h with ⟨v, hv, hcv, heq⟩
    have hvv := msg10_inj heq
    subst hvv
    exact ⟨hv, hcv⟩
  · rintro ⟨hv, hcv⟩
    exact (hmem search patterns vals (msg10 val)).mpr ⟨val, hv, hcv, rfl⟩

/-! ## Claim C7 -/

/-- Projection of the check 3 body outcome onto its diagnostics (an error is
surfaced as a singleton so that it can never be mistaken for silence). -/
def fx3ErrsOf (ff : String) (fx : Yaml) : List String :=
  match fx3Body ff fx none with
  | .ok p => p.1
  | .error e => [e]

/-- A fixture whose `idea.name` is `Foo_1`. -/
def c7FixFoo : Yaml := .map [("idea", .map [("name", .str "Foo_1")])]

/-- A fixture whose `idea.name` is `foo-1`. -/
def c7FixGood : Yaml := .map [("idea", .map [("name", .str "foo-1")])]

/-- Claim C7: the fixture name check of validate-semantics.py rejects
`Foo_1` (one name-format diagnostic) and accepts `foo-1` (no name-format
diagnostic), and the idea validator's `re.fullmatch` gate makes the same
accept/reject decision on those two names. -/
theorem c7_name_format :
    msg3Name "tests/fixtures/a.yaml" "Foo_1" ∈
      fx3ErrsOf "tests/fixtures/a.yaml" c7FixFoo ∧
    msg3Name "tests/fixtures/a.yaml" "foo-1" ∉
      fx3ErrsOf "tests/fixtures/a.yaml" c7FixGood ∧
    sem_name_match "Foo_1" = false ∧ sem_name_match "foo-1" = true ∧
    ideaNameGate (.map [("name", .str "Foo_1")]) = .ok false ∧
    ideaNameGate (.map [("name", .str "foo-1")]) = .ok true := by
  exact ⟨by decide, by decide, by decide, by decide, by rfl, by rfl⟩

/-! ## Claim C5 -/

theorem basenamesOf_map_str (refs : List String) :
    basenamesOf (refs.map .str) = .ok (refs.map pathBase) := by
  induction refs with
  | nil => rfl
  | cons r rs ih => simp [basenamesOf, pyBasename, ih, Bind.bind, Except.bind]

theorem contains_basenames_filtered_self (refs : List String) (b : String) :
    (((refs.filter (fun r => !(pathBase r == b))).map pathBase).contains b) = false := by
  rw [Bool.eq_false_iff]
  intro hc
  rcases List.mem_map.mp (List.elem_iff.mp hc) with ⟨r, hr, hrb⟩
  have := (List.mem_filter.mp hr).2
  rw [hrb] at this
  simp at this

theorem contains_basenames_filtered_other (refs : List String) (b c : String)
    (hc : (refs.map pathBase).contains c = true) (hne : c ≠ b) :
    (((refs.filter (fun r => !(pathBase r == b))).map pathBase).contains c) = true := by
  rcases List.mem_map.mp (List.elem_iff.mp hc) with ⟨r, hr, hrc⟩
  refine List.elem_iff.mpr (List.mem_map.mpr ⟨r, List.mem_filter.mpr ⟨hr, ?_⟩, hrc⟩)
  subst hrc
  simp [hne]

/-- Claim C5: for a skill of type `code-writing`, check 5 of
validate-frontmatter.py checks that the mandatory basenames `verify.md` and
`failure-patterns.md` are among the basenames of `references` (no diagnostic
exactly when both are); removing every reference carrying one mandatory
basename produces exactly one diagnostic whose text names that basename; a
skill of any other type produces no check 5 diagnostic. -/
theorem c5_mandatory_references :
    (∀ (sf : String) (data : Yaml) (refs : List String),
      pyGetD data "type" .null = .ok (.str "code-writing") →
      pyGetD data "references" (.list []) = .ok (.list (refs.map .str)) →
      (check5Skill sf data = .ok [] ↔
        ((refs.map pathBase).contains "verify.md" = true ∧
         (refs.map pathBase).contains "failure-patterns.md" = true))) ∧
    (∀ (sf : String) (data : Yaml) (refs : List String) (b : String),
      pyGetD data "type" .null = .ok (.str "code-writing") →
      (b = "verify.md" ∨ b = "failure-patterns.md") →
      (refs.map pathBase).contains "verify.md" = true →
      (refs.map pathBase).contains "failure-patterns.md" = true →
      pyGetD data "references" (.list []) =
        .ok (.list ((refs.filter (fun r => !(pathBase r == b))).map .str)) →
      (check5Skill sf data = .ok [msg5 sf b] ∧ strContains (msg5 sf b) b = true)) ∧
    (∀ (sf : String) (data : Yaml) (t : Yaml),
      pyGetD data "type" .null = .ok t → yamlEqStr t "code-writing" = false →
      check5Skill sf data = .ok []) := by
  refine ⟨?_, ?_, ?_⟩
  · intro sf data refs h1 h2
    rw [check5Skill]
    simp only [h1, h2, Bind.bind, Except.bind, yamlEqStr, beq_self_eq_true,
      Bool.not_true, Bool.false_eq_true, if_false, pyIter, basenamesOf_map_str]
    cases hv : (refs.map pathBase).contains "verify.md" <;>
      cases hf : (refs.map pathBase).contains "failure-patterns.md" <;>
        simp [hv, hf, msg5]
  · intro sf data refs b h1 hb hv hf h2
    have hvmsg : strContains (msg5 sf b) b = true := by
      apply charsInfix_of_infix
      refine ⟨("[5] " ++ sf ++ ": code-writing skill missing ").data,
        " in references".data, ?_⟩
      simp [msg5, String.data_append, List.append_assoc]
    rw [check5Skill]
    simp only [h1, h2, Bind.bind, Except.bind, yamlEqStr, beq_self_eq_true,
      Bool.not_true, Bool.false_eq_true, if_false, pyIter, basenamesOf_map_str]
    rcases hb with hb | hb <;> subst hb
    · rw [contains_basenames_filtered_self refs "verify.md",
        contains_basenames_filtered_other refs "verify.md" "failure-patterns.md" hf
          (by decide)]
      exact ⟨rfl, hvmsg⟩
    · rw [contains_basenames_filtered_self refs "failure-patterns.md",
        contains_basenames_filtered_other refs "failure-patterns.md" "verify.md" hv
          (by decide)]
      exact ⟨rfl, hvmsg⟩
  · intro sf data t h1 ht
    rw [check5Skill]
    simp [h1, ht, Bind.bind, Except.bind]

/-- Witness skill path for C5. -/
def c5Path : String := ".claude/commands/implement.md"

/-- Witness reference list for C5. -/
def c5Refs : List String := ["docs/verify.md", "docs/failure-patterns.md", "README.md"]

/-- Witness skill data with both mandatory references. -/
def c5DataFull : Yaml :=
  .map [("type", .str "code-writing"),
        ("references", .list [.str "docs/verify.md", .str "docs/failure-patterns.md",
                              .str "README.md"])]

/-- Witness skill data with the verify reference removed. -/
def c5DataNoVerify : Yaml :=
  .map [("type", .str "code-writing"),
        ("references", .list [.str "docs/failure-patterns.md", .str "README.md"])]

/-- Witness skill data of a non-code-writing type. -/
def c5DataAnalysis : Yaml :=
  .map [("type", .str "analysis-only"), ("references", .list [])]

theorem c5_witness :
    check5Skill c5Path c5DataFull = .ok [] ∧
    check5Skill c5Path c5DataNoVerify = .ok [msg5 c5Path "verify.md"] ∧
    strContains (msg5 c5Path "verify.md") "verify.md" = true ∧
    check5Skill c5Path c5DataAnalysis = .ok [] := by
  have h2 := c5_mandatory_references.2.1 c5Path c5DataNoVerify c5Refs "verify.md"
    (by rfl) (Or.inl rfl) (by decide) (by decide) (by rfl)
  exact ⟨(c5_mandatory_references.1 c5Path c5DataFull c5Refs (by rfl) (by rfl)).mpr
      (by decide),
    h2.1, h2.2,
    c5_mandatory_references.2.2 c5Path c5DataAnalysis (.str "analysis-only")
      (by rfl) (by decide)⟩

/-! ## Claim C8 -/

theorem strHead (a b : String) (c : Char)
    (h : a.data.head? = some c) : (a ++ b).data.head? = some c := by
  rw [String.data_append]
  cases ha : a.data with
  | nil => rw [ha] at h; cases h
  | cons x xs =>
    rw [ha] at h
    simp only [List.cons_append, List.head?_cons]
    simpa using h

theorem msg3Key_ne_pay (ff k : String) : msg3Key ff k ≠ msg3Pay ff := by
  apply mkMsg3_ne_of_head
  rw [strHead _ _ 'm' (strHead _ _ 'm' (strHead _ _ 'm' (by decide)))]
  decide

theorem msg3Name_ne_pay (ff nm : String) : msg3Name ff nm ≠ msg3Pay ff := by
  apply mkMsg3_ne_of_head
  rw [strHead _ _ 'i' (strHead _ _ 'i' (strHead _ _ 'i' (strHead _ _ 'i' (by decide))))]
  decide

theorem msg3Field_ne_pay (ff fld : String) : msg3Field ff fld ≠ msg3Pay ff := by
  apply mkMsg3_ne_of_head
  rw [strHead _ _ 'i' (strHead _ _ 'i' (by decide))]
  decide

theorem msg3Landing_ne_pay (ff : String) : msg3Landing ff ≠ msg3Pay ff :=
  mkMsg3_ne_of_head (by decide)

theorem msg3Signup_ne_pay (ff ev : String) : msg3Signup ff ev ≠ msg3Pay ff := by
  apply mkMsg3_ne_of_head
  rw [strHead _ _ 'n' (strHead _ _ 'n' (strHead _ _ 'n' (by decide)))]
  decide

theorem msg3Min_ne_pay (ff : String) (n : Nat) (mp : Yaml) :
    msg3Min ff n mp ≠ msg3Pay ff := by
  apply mkMsg3_ne_of_head
  rw [strHead _ _ 'i' (strHead _ _ 'i' (strHead _ _ 'i' (by decide)))]
  decide

theorem msg3PF_ne_pay (ff : String) : msg3PFNonEmpty ff ≠ msg3Pay ff :=
  mkMsg3_ne_of_head (by decide)

theorem pay_not_mem_keyErrs (ff : String) (fkvs : List (String × Yaml)) :
    msg3Pay ff ∉ keyErrs3 ff fkvs := by
  intro h
  rcases List.mem_filterMap.mp h with ⟨k, -, hk⟩
  split at hk
  · cases hk
  · exact msg3Key_ne_pay ff k (by injection hk)

theorem pay_not_mem_nameErrs (ff : String) (nv : Yaml) :
    msg3Pay ff ∉ nameErrs3 ff nv := by
  unfold nameErrs3
  split
  · simp
  · simp only [List.mem_singleton]
    intro h
    exact msg3Name_ne_pay ff _ h.symm

theorem pay_not_mem_fieldErrs (ff : String) (ikvs : List (String × Yaml)) :
    msg3Pay ff ∉ fieldErrs3 ff ikvs := by
  intro h
  rcases List.mem_filterMap.mp h with ⟨fld, -, hk⟩
  split at hk
  · cases hk
  · exact msg3Field_ne_pay ff fld (by injection hk)

theorem pay_not_mem_landingErrs (ff : String) (pg : Yaml) :
    msg3Pay ff ∉ landingErrs3 ff pg := by
  unfold landingErrs3
  split
  · split
    · simp
    · simp only [List.mem_singleton]
      intro h
      exact msg3Landing_ne_pay ff h.symm
  · simp

theorem pay_not_mem_signupErrs (ff : String) (sk : Yaml) (v : List String)
    (h : signupErrs ff sk = .ok v) : msg3Pay ff ∉ v := by
  cases h1 : pyIn "signup_start" sk with
  | error e => rw [signupErrs, h1] at h; simp [Bind.bind, Except.bind] at h
  | ok b1 =>
    cases h2 : pyIn "signup_complete" sk with
    | error e =>
      rw [signupErrs, h1, h2] at h; simp [Bind.bind, Except.bind] at h
    | ok b2 =>
      rw [signupErrs, h1, h2] at h
      simp only [Bind.bind, Except.bind, Except.ok.injEq] at h
      subst h
      intro hm
      rcases List.mem_append.mp hm with hm | hm <;> split at hm
      · cases hm
      · exact msg3Signup_ne_pay ff _ (List.mem_singleton.mp hm).symm
      · cases hm
      · exact msg3Signup_ne_pay ff _ (List.mem_singleton.mp hm).symm

theorem pay_not_mem_signupBlock (ff : String) (hs : Bool) (sk : Yaml)
    (v : List String) (h : signupBlock ff hs sk = .ok v) : msg3Pay ff ∉ v := by
  cases hs with
  | true =>
    have h2 : Except.ok ([] : List String) = Except.ok v := h
    injection h2 with h2
    subst h2; simp
  | false =>
    have h2 : signupErrs ff sk = Except.ok v := h
    exact pay_not_mem_signupErrs ff sk v h2

theorem pay_not_mem_minPages (ff : String) (pg mp : Yaml) (v : List String)
    (h : minPagesErr ff pg mp = .ok v) : msg3Pay ff ∉ v := by
  unfold minPagesErr at h
  split at h
  · injection h with h; subst h; simp
  · split at h
    · rename_i pl
      cases hlt : pyLtNat pl.length mp with
      | error e => rw [hlt] at h; simp [Bind.bind, Except.bind] at h
      | ok b =>
        rw [hlt] at h
        simp only [Bind.bind, Except.bind, Except.ok.injEq] at h
        subst h
        split
        · simp only [List.mem_singleton]
          intro hm
          exact msg3Min_ne_pay ff _ _ hm.symm
        · simp
    · injection h with h; subst h; simp

theorem pay_not_mem_events (ff : String) (ev : Yaml) (hpv : Option Bool)
    (v : List String) (h : eventsErrsFx ff ev hpv = .ok v) : msg3Pay ff ∉ v := by
  unfold eventsErrsFx at h
  split at h
  · split at h
    · cases h
    · split at h
      · split at h
        · injection h with h; subst h
          simp only [List.mem_singleton]
          intro hm
          exact msg3PF_ne_pay ff hm.symm
        · injection h with h; subst h; simp
      · injection h with h; subst h; simp
  · injection h with h; subst h; simp

theorem pay_mem_payErrs (ff : String) (pr : Yaml) (hasP : Bool) :
    msg3Pay ff ∈ payErrs3 ff pr hasP ↔ (yamlTruthy pr = true ∧ hasP = false) := by
  unfold payErrs3
  cases ht : yamlTruthy pr <;> cases hasP <;> simp [ht]

/-- Claim C8: in the fixture rule (check 3 of validate-semantics.py), a
fixture whose `idea.stack` mapping has no `payment` entry while
`assertions.payment_events_required` is `true` gets the payment coverage-gap
diagnostic; when `idea.stack` has a `payment` entry, or
`payment_events_required` is absent or `false` (absence defaults to `False`
via `.get`), that diagnostic is not emitted. -/
theorem c8_payment_coverage :
    ∀ (ff : String) (fkvs ikvs akvs skvs : List (String × Yaml))
      (hp0 : Option Bool) (l : List String) (hp : Option Bool),
      dictGetD fkvs "idea" (.map []) = .map ikvs →
      dictGetD fkvs "assertions" (.map []) = .map akvs →
      dictGetD ikvs "stack" (.map []) = .map skvs →
      fx3Body ff (.map fkvs) hp0 = .ok (l, hp) →
      ((dictGetD akvs "payment_events_required" (.bool false) = .bool true →
          dictHasKey skvs "payment" = false → msg3Pay ff ∈ l) ∧
       ((dictHasKey skvs "payment" = true ∨
         dictGetD akvs "payment_events_required" (.bool false) = .bool false) →
        msg3Pay ff ∉ l)) := by
  intro ff fkvs ikvs akvs skvs hp0 l hp h1 h2 h3 hbody
  simp only [fx3Body, h1, h2, h3, Bind.bind, Except.bind] at hbody
  cases hS : signupBlock ff (hasSignupPage (dictGetD ikvs "pages" (Yaml.list [])))
      (dictGetD akvs "skippable_events" (Yaml.list [])) with
  | error e => rw [hS] at hbody; simp at hbody
  | ok vS =>
  rw [hS] at hbody
  cases hM : minPagesErr ff (dictGetD ikvs "pages" (Yaml.list []))
      (dictGetD akvs "min_pages" Yaml.null) with
  | error e => rw [hM] at hbody; simp at hbody
  | ok vM =>
  rw [hM] at hbody
  cases hE : eventsErrsFx ff (dictGetD fkvs "events" (Yaml.map []))
      (some (stackHasPayment (Yaml.map skvs))) with
  | error e => rw [hE] at hbody; simp at hbody
  | ok vE =>
  rw [hE] at hbody
  simp only [Except.ok.injEq, Prod.mk.injEq] at hbody
  obtain ⟨hl, -⟩ := hbody
  subst hl
  have hsp : stackHasPayment (Yaml.map skvs) = dictHasKey skvs "payment" := rfl
  constructor
  · intro hreq hno
    have hpay : msg3Pay ff ∈
        payErrs3 ff (dictGetD akvs "payment_events_required" (.bool false))
          (stackHasPayment (Yaml.map skvs)) := by
      rw [pay_mem_payErrs]
      exact ⟨by rw [hreq]; rfl, by rw [hsp, hno]⟩
    simp only [List.mem_append]
    exact Or.inl (Or.inl (Or.inl (Or.inr hpay)))
  · intro hcase hmem
    simp only [List.mem_append] at hmem
    rcases hmem with ((((((hA | hN) | hF) | hL) | hP) | hSm) | hMm) | hEm
    · exact pay_not_mem_keyErrs ff fkvs hA
    · exact pay_not_mem_nameErrs ff _ hN
    · exact pay_not_mem_fieldErrs ff ikvs hF
    · exact pay_not_mem_landingErrs ff _ hL
    · rcases (pay_mem_payErrs ff _ _).mp hP with ⟨htr, hfalse⟩
      rw [hsp] at hfalse
      rcases hcase with hcase | hcase
      · rw [hcase] at hfalse; cases hfalse
      · rw [hcase] at htr; cases htr
    · exact pay_not_mem_signupBlock ff _ _ vS hS hSm
    · exact pay_not_mem_minPages ff _ _ vM hM hMm
    · exact pay_not_mem_events ff _ _ vE hE hEm

/-- Witness idea data (no payment stack entry) for C8. -/
def c8ikvs : List (String × Yaml) :=
  [("name", .str "pay-test"), ("stack", .map [])]

/-- Witness assertions (payment events required) for C8. -/
def c8akvs : List (String × Yaml) :=
  [("payment_events_required", .bool true)]

/-- Witness fixture with payment asserted but no payment stack entry. -/
def c8fkvs : List (String × Yaml) :=
  [("idea", .map c8ikvs), ("events", .map []), ("assertions", .map c8akvs)]

/-- Witness idea data with a payment stack entry. -/
def c8ikvs2 : List (String × Yaml) :=
  [("name", .str "pay-test"), ("stack", .map [("payment", .str "stripe")])]

/-- Witness fixture with payment asserted and a payment stack entry. -/
def c8fkvs2 : List (String × Yaml) :=
  [("idea", .map c8ikvs2), ("events", .map []), ("assertions", .map c8akvs)]

theorem c8_witness :
    msg3Pay "tests/fixtures/pay.yaml" ∈
      fx3ErrsOf "tests/fixtures/pay.yaml" (.map c8fkvs) ∧
    msg3Pay "tests/fixtures/pay.yaml" ∉
      fx3ErrsOf "tests/fixtures/pay.yaml" (.map c8fkvs2) :=
  ⟨(c8_payment_coverage "tests/fixtures/pay.yaml" c8fkvs c8ikvs c8akvs [] none _ _
      rfl rfl rfl rfl).1 rfl rfl,
   (c8_payment_coverage "tests/fixtures/pay.yaml" c8fkvs2 c8ikvs2 c8akvs
      [("payment", .str "stripe")] none _ _ rfl rfl rfl rfl).2 (Or.inl rfl)⟩

/-! ## Claim C9 -/

/-- Specification-side vocabulary: a funnel entry (a mapping) carries a key.
Used only to state what the validate-events.py checks establish. -/
def entryHasKeyB (e : Yaml) (k : String) : Bool :=
  match e with
  | .map ekvs => dictHasKey ekvs k
  | _ => false

theorem dictGet?_none_of_hasKey_false {m : List (String × Yaml)} {k : String}
    (h : dictHasKey m k = false) : dictGet? m k = none := by
  unfold dictHasKey at h
  unfold dictGet?
  cases hf : m.find? (fun p => p.1 == k) with
  | none => rfl
  | some p => rw [hf] at h; cases h

theorem dictGet?_some_of_hasKey_true {m : List (String × Yaml)} {k : String}
    (h : dictHasKey m k = true) : ∃ v, dictGet? m k = some v := by
  unfold dictHasKey at h
  unfold dictGet?
  cases hf : m.find? (fun p => p.1 == k) with
  | none => rw [hf] at h; cases h
  | some p => exact ⟨p.2, rfl⟩

theorem eventsEntryErrs_spec (sec : String) (entries : List Yaml)
    (hmaps : ∀ e ∈ entries, ∃ ekvs, e = .map ekvs) :
    ∀ i, ∃ errs, eventsEntryErrs sec i entries = .ok errs ∧
      (errs = [] ↔ ∀ e ∈ entries,
        entryHasKeyB e "event" = true ∧ entryHasKeyB e "trigger" = true) := by
  induction entries with
  | nil => intro i; exact ⟨[], rfl, by simp⟩
  | cons e es ih =>
    intro i
    obtain ⟨ekvs, he⟩ := hmaps e (List.mem_cons_self e es)
    subst he
    obtain ⟨errs, hrec, hiff⟩ :=
      ih (fun x hx => hmaps x (List.mem_cons_of_mem _ hx)) (i + 1)
    refine ⟨(if dictHasKey ekvs "event" then [] else [msgEvField sec i "event"]) ++
            ((if dictHasKey ekvs "trigger" then [] else [msgEvField sec i "trigger"]) ++
             errs), ?_, ?_⟩
    · rw [eventsEntryErrs]
      simp [pyIn, hrec, Bind.bind, Except.bind]
    · cases h1 : dictHasKey ekvs "event" <;> cases h2 : dictHasKey ekvs "trigger" <;>
        simp [h1, h2, hiff, entryHasKeyB]

theorem eventsSectionErrs_spec (m : List (String × Yaml)) (sec : String)
    (hshape : ∀ v, dictGet? m sec = some v →
      ∃ entries, v = .list entries ∧ ∀ e ∈ entries, ∃ ekvs, e = .map ekvs) :
    ∃ errs, eventsSectionErrs (.map m) sec = .ok errs ∧
      (errs = [] ↔ ∀ entries, dictGet? m sec = some (.list entries) →
        ∀ e ∈ entries, entryHasKeyB e "event" = true ∧
          entryHasKeyB e "trigger" = true) := by
  cases hpres : dictHasKey m sec with
  | false =>
    refine ⟨[], ?_, ?_⟩
    · rw [eventsSectionErrs]
      simp [pyIn, hpres, Bind.bind, Except.bind]
    · simp only [true_iff]
      intro entries hget
      rw [dictGet?_none_of_hasKey_false hpres] at hget
      cases hget
  | true =>
    obtain ⟨v, hv⟩ := dictGet?_some_of_hasKey_true hpres
    obtain ⟨entries, rfl, hmaps⟩ := hshape v hv
    have hsub : pySubscript (.map m) sec = .ok (.list entries) := by
      rw [pySubscript, hv]
    cases hent : entries with
    | nil =>
      refine ⟨[], ?_, ?_⟩
      · rw [eventsSectionErrs]
        simp [pyIn, hpres, hsub, hent, Bind.bind, Except.bind, yamlTruthy]
      · simp only [true_iff]
        intro entries2 hget
        rw [hv, hent] at hget
        intro e he
        rw [← (Yaml.list.injEq _ _).mp (Option.some.injEq _ _ |>.mp hget)] at he
        cases he
    | cons e0 es0 =>
      subst hent
      obtain ⟨errs, hrun, hiff⟩ := eventsEntryErrs_spec sec (e0 :: es0) hmaps 0
      refine ⟨errs, ?_, ?_⟩
      · rw [eventsSectionErrs]
        simp [pyIn, hpres, hsub, Bind.bind, Except.bind, yamlTruthy, pyIter, hrun]
      · rw [hiff]
        constructor
        · intro hall entries2 hget
          rw [hv] at hget
          rw [← (Yaml.list.injEq _ _).mp (Option.some.injEq _ _ |>.mp hget)]
          exact hall
        · intro hall
          exact hall (e0 :: es0) hv

/-- Claim C9: validate-events.py exits without error exactly when the loaded
data is a non-empty mapping containing the keys `standard_funnel` and
`custom_events`, and every entry of whichever of the `standard_funnel` and
`payment_funnel` sections are present and non-empty carries both an `event`
and a `trigger` key; `custom_events` entries are never field-checked (they do
not occur in the right-hand side), while `payment_funnel` is field-checked
despite not being a required key. -/
theorem c9_events_exit :
    ∀ (m : List (String × Yaml)),
      (∀ sec ∈ (["standard_funnel", "payment_funnel"] : List String), ∀ v,
        dictGet? m sec = some v →
        ∃ entries, v = .list entries ∧ ∀ e ∈ entries, ∃ ekvs, e = .map ekvs) →
      (eventsExit (.map m) = .ok 0 ↔
        (m ≠ [] ∧ dictHasKey m "standard_funnel" = true ∧
         dictHasKey m "custom_events" = true ∧
         ∀ sec ∈ (["standard_funnel", "payment_funnel"] : List String),
           ∀ entries, dictGet? m sec = some (.list entries) →
             ∀ e ∈ entries, entryHasKeyB e "event" = true ∧
               entryHasKeyB e "trigger" = true)) := by
  intro m hshape
  cases hm : m.isEmpty with
  | true =>
    rw [List.isEmpty_iff] at hm
    subst hm
    rw [eventsExit, eventsErrors]
    simp [yamlTruthy, Bind.bind, Except.bind]
  | false =>
    have hmne : m ≠ [] := by
      intro h; rw [h] at hm; cases hm
    obtain ⟨e2, hrun2, hiff2⟩ := eventsSectionErrs_spec m "standard_funnel"
      (hshape "standard_funnel" (by simp))
    obtain ⟨e3, hrun3, hiff3⟩ := eventsSectionErrs_spec m "payment_funnel"
      (hshape "payment_funnel" (by simp))
    rw [eventsExit, eventsErrors]
    simp only [yamlTruthy, hm, Bool.not_false, if_pos rfl, Bool.not_eq_true',
      Bool.false_eq_true, if_false, Bind.bind, Except.bind, pyIn, hrun2, hrun3]
    cases h1 : dictHasKey m "standard_funnel" <;>
      cases h2 : dictHasKey m "custom_events" <;>
        simp [h1, h2, hmne, hiff2, hiff3, msgEvKey]

/-- Witness EVENTS.yaml data for C9. -/
def c9m : List (String × Yaml) :=
  [("standard_funnel",
    .list [.map [("event", .str "page_view"), ("trigger", .str "load")]]),
   ("custom_events", .list [])]

theorem c9_witness : eventsExit (.map c9m) = .ok 0 := by
  apply (c9_events_exit c9m ?hs).mpr ?hr
  case hs =>
    intro sec hsec v hget
    simp only [List.mem_cons, List.not_mem_nil, or_false] at hsec
    rcases hsec with rfl | rfl
    · rw [show dictGet? c9m "standard_funnel" =
          some (Yaml.list [Yaml.map [("event", Yaml.str "page_view"),
            ("trigger", Yaml.str "load")]]) from rfl] at hget
      injection hget with h
      subst h
      refine ⟨_, rfl, ?_⟩
      intro e he
      simp only [List.mem_singleton] at he
      subst he
      exact ⟨_, rfl⟩
    · rw [show dictGet? c9m "payment_funnel" = none from rfl] at hget
      cases hget
  case hr =>
    refine ⟨List.cons_ne_nil _ _, rfl, rfl, ?_⟩
    intro sec hsec entries hget
    simp only [List.mem_cons, List.not_mem_nil, or_false] at hsec
    rcases hsec with rfl | rfl
    · rw [show dictGet? c9m "standard_funnel" =
          some (Yaml.list [Yaml.map [("event", Yaml.str "page_view"),
            ("trigger", Yaml.str "load")]]) from rfl] at hget
      injection hget with h
      injection h with h
      subst h
      intro e he
      simp only [List.mem_singleton] at he
      subst he
      exact ⟨rfl, rfl⟩
    · rw [show dictGet? c9m "payment_funnel" = none from rfl] at hget
      cases hget

/-! ## Claims C1 and C2: run-level behaviour of validate-frontmatter.py -/

/-- Shared helper: when the first stack file's frontmatter delimiter matches
but its YAML cannot be decoded, `parse_frontmatter` raises and the whole
validate-frontmatter.py run dies in check 1, before any diagnostic is
recorded. -/
theorem runVF_abort_first_stack (sl : String → Except String Yaml)
    (se : String → String → Except Unit Bool) (fs : FS) (sf : String)
    (rest : List String) (e : String) (hsf : stack_files fs = sf :: rest)
    (hp : parse_frontmatter sl (fs.read sf) = .error e) :
    runVF sl se fs = ([], .error e) := by
  have h1 : check1 sl fs = .error e := by
    rw [check1, hsf]
    simp [fmRequiredCheck, hp, Bind.bind, Except.bind]
  simp [runVF, h1]

/-- Corpus whose single stack document has a present-but-undecodable
frontmatter block. -/
def fsC1 : FS := ⟨[(".claude/stacks/web/nextjs.md", "---\nbad: [\n---\nBody\n")], []⟩

/-- Claim C1 counterexample: a single document whose structured header is
present but cannot be decoded as YAML *does* abort the whole
validate-frontmatter.py run — the uncaught `yaml.YAMLError` kills the
process with no diagnostic recorded for that document and no later check
executed. -/
theorem c1_counterexample :
    parse_frontmatter yamlStub (fsC1.read ".claude/stacks/web/nextjs.md") =
      .error stubFlowErr ∧
    runVF yamlStub reStubFalse fsC1 = ([], .error stubFlowErr) := ⟨rfl, rfl⟩

/-- Claim C1 (amended): in the *fixture* rule of validate-semantics.py a
document whose YAML cannot be decoded yields one `invalid YAML` diagnostic
and the loop continues with the remaining fixtures; but a stack (or skill)
document whose frontmatter delimiter is present with undecodable YAML
raises an uncaught exception inside `parse_frontmatter` that aborts the
whole frontmatter-validator run with no diagnostic for it. -/
theorem c1_amended :
    (∀ (sl : String → Except String Yaml) (fs : FS) (hp : Option Bool)
       (ff : String) (rest : List String) (e : String),
      sl (fs.read ff) = .error e →
      fx3Loop sl fs hp (ff :: rest) =
        (fx3Loop sl fs hp rest).map (fun l => msgBadYaml ff e :: l)) ∧
    (∀ (sl : String → Except String Yaml)
       (se : String → String → Except Unit Bool) (fs : FS) (sf : String)
       (rest : List String) (e : String),
      stack_files fs = sf :: rest →
      parse_frontmatter sl (fs.read sf) = .error e →
      runVF sl se fs = ([], .error e)) := by
  constructor
  · intro sl fs hp ff rest e h
    simp [fx3Loop, h]
  · exact fun sl se fs sf rest e h1 h2 =>
      runVF_abort_first_stack sl se fs sf rest e h1 h2

/-- Witness corpus for the fixture half of C1. -/
def fsW1 : FS :=
  ⟨[("tests/fixtures/bad.yaml", "x: [\n"), ("tests/fixtures/ok.yaml", "k: v\n")],
   ["tests/fixtures"]⟩

theorem c1_amended_witness :
    yamlStub (fsW1.read "tests/fixtures/bad.yaml") = .error stubFlowErr ∧
    fx3Loop yamlStub fsW1 none ["tests/fixtures/bad.yaml", "tests/fixtures/ok.yaml"] =
      (fx3Loop yamlStub fsW1 none ["tests/fixtures/ok.yaml"]).map
        (fun l => msgBadYaml "tests/fixtures/bad.yaml" stubFlowErr :: l) ∧
    stack_files fsC1 = [".claude/stacks/web/nextjs.md"] ∧
    runVF yamlStub reStubFalse fsC1 = ([], .error stubFlowErr) :=
  ⟨rfl,
   c1_amended.1 yamlStub fsW1 none "tests/fixtures/bad.yaml"
     ["tests/fixtures/ok.yaml"] stubFlowErr rfl,
   rfl,
   c1_amended.2 yamlStub reStubFalse fsC1 ".claude/stacks/web/nextjs.md" []
     stubFlowErr rfl rfl⟩

/-- Corpus for the C2 counterexample (same failure mode, its own corpus). -/
def fsC2 : FS := ⟨[(".claude/stacks/db/postgres.md", "---\nbad: [\n---\nBody\n")], []⟩

/-- Claim C2 counterexample: a run of validate-frontmatter.py whose collected
diagnostic list is empty but whose process completion status is failing
(the interpreter exits 1 on the uncaught `yaml.YAMLError`), refuting
"an empty diagnostic list yields a passing (zero) status". -/
theorem c2_counterexample :
    (runVF yamlStub reStubFalse fsC2).1 = [] ∧
    processStatus (runVF yamlStub reStubFalse fsC2) = 1 := ⟨rfl, rfl⟩

theorem vfSummary_ne_zero_iff (l : List String) : vfSummary l ≠ 0 ↔ l ≠ [] := by
  cases l <;> simp [vfSummary]

/-- Claim C2 (amended): for every run of validate-frontmatter.py that reaches
its summary (no uncaught exception), the exit status is non-zero exactly
when the collected diagnostic list is non-empty; a run aborted by an
uncaught parse exception is failing regardless of the collected list. -/
theorem c2_amended :
    ∀ (sl : String → Except String Yaml)
      (se : String → String → Except Unit Bool) (fs : FS)
      (errs : List String) (c : Nat),
      runVF sl se fs = (errs, .ok c) → (c ≠ 0 ↔ errs ≠ []) := by
  intro sl se fs errs c h
  unfold runVF at h
  repeat' split at h
  all_goals (rw [Prod.mk.injEq] at h; obtain ⟨he, hc⟩ := h)
  all_goals try simp at hc
  subst he
  subst hc
  simp only [List.append_assoc]
  exact vfSummary_ne_zero_iff _

/-- The empty corpus: a clean passing run. -/
def fsEmpty : FS := ⟨[], []⟩

theorem c2_amended_witness :
    runVF yamlStub reStubFalse fsEmpty = ([], .ok 0) ∧
    ((0 : Nat) ≠ 0 ↔ ([] : List String) ≠ []) :=
  ⟨rfl, c2_amended yamlStub reStubFalse fsEmpty [] 0 rfl⟩

/-! ## Claims C3 and C4: registration and per-key diagnostics -/

theorem fmRequiredCheck_registry_mem (tag : String) (keys : List String)
    (sl : String → Except String Yaml) (fs : FS) :
    ∀ (files : List String) (sd : List (String × Yaml)) (errs : List String),
      fmRequiredCheck tag keys sl fs files = .ok (sd, errs) →
      ∀ p ∈ sd, p.1 ∈ files := by
  intro files
  induction files with
  | nil =>
    intro sd errs h p hp
    rw [fmRequiredCheck] at h
    simp only [Except.ok.injEq, Prod.mk.injEq] at h
    rw [← h.1] at hp
    cases hp
  | cons f rest ih =>
    intro sd errs h p hp
    rw [fmRequiredCheck] at h
    cases hpf : parse_frontmatter sl (fs.read f) with
    | error e => simp [hpf, Bind.bind, Except.bind] at h
    | ok data =>
      cases hn : yamlIsNull data with
      | true =>
        cases hr : fmRequiredCheck tag keys sl fs rest with
        | error e => simp [hpf, hn, hr, Bind.bind, Except.bind] at h
        | ok pr =>
          simp only [hpf, hn, hr, Bind.bind, Except.bind, if_true,
            Except.ok.injEq, Prod.mk.injEq] at h
          rw [← h.1] at hp
          exact List.mem_cons_of_mem _ (ih pr.1 pr.2 (by rw [hr]) p hp)
      | false =>
        cases hk : keysNotIn data keys with
        | error e => simp [hpf, hn, hk, Bind.bind, Except.bind] at h
        | ok miss =>
          cases hr : fmRequiredCheck tag keys sl fs rest with
          | error e => simp [hpf, hn, hk, hr, Bind.bind, Except.bind] at h
          | ok pr =>
            simp only [hpf, hn, hk, hr, Bind.bind, Except.bind,
              Bool.false_eq_true, if_false, Except.ok.injEq, Prod.mk.injEq] at h
            rw [← h.1] at hp
            rcases List.mem_cons.mp hp with rfl | hp2
            · exact List.mem_cons_self _ _
            · exact List.mem_cons_of_mem _ (ih pr.1 pr.2 (by rw [hr]) p hp2)

theorem fmRequiredCheck_missing_header (tag : String) (keys : List String)
    (sl : String → Except String Yaml) (fs : FS) :
    ∀ (files : List String) (sd : List (String × Yaml)) (errs : List String),
      fmRequiredCheck tag keys sl fs files = .ok (sd, errs) →
      ∀ sf ∈ files, parse_frontmatter sl (fs.read sf) = .ok .null →
        sf ∉ sd.map Prod.fst ∧ msgNoFM tag sf ∈ errs := by
  intro files
  induction files with
  | nil =>
    intro sd errs h sf hsf
    cases hsf
  | cons f rest ih =>
    intro sd errs h sf hsf hnull
    rw [fmRequiredCheck] at h
    cases hpf : parse_frontmatter sl (fs.read f) with
    | error e => simp [hpf, Bind.bind, Except.bind] at h
    | ok data =>
      cases hn : yamlIsNull data with
      | true =>
        cases hr : fmRequiredCheck tag keys sl fs rest with
        | error e => simp [hpf, hn, hr, Bind.bind, Except.bind] at h
        | ok pr =>
          simp only [hpf, hn, hr, Bind.bind, Except.bind, if_true,
            Except.ok.injEq, Prod.mk.injEq] at h
          obtain ⟨hsd, herr⟩ := h
          rcases List.mem_cons.mp hsf with rfl | hsf2
          · constructor
            · by_cases hmem : sf ∈ rest
              · rw [← hsd]
                exact (ih pr.1 pr.2 (by rw [hr]) sf hmem hnull).1
              · rw [← hsd]
                intro hcon
                rcases List.mem_map.mp hcon with ⟨p, hp, hp1⟩
                exact hmem (hp1 ▸
                  fmRequiredCheck_registry_mem tag keys sl fs rest pr.1 pr.2
                    (by rw [hr]) p hp)
            · rw [← herr]
              exact List.mem_cons_self _ _
          · obtain ⟨h1, h2⟩ := ih pr.1 pr.2 (by rw [hr]) sf hsf2 hnull
            exact ⟨by rw [← hsd]; exact h1,
                   by rw [← herr]; exact List.mem_cons_of_mem _ h2⟩
      | false =>
        cases hk : keysNotIn data keys with
        | error e => simp [hpf, hn, hk, Bind.bind, Except.bind] at h
        | ok miss =>
          cases hr : fmRequiredCheck tag keys sl fs rest with
          | error e => simp [hpf, hn, hk, hr, Bind.bind, Except.bind] at h
          | ok pr =>
            simp only [hpf, hn, hk, hr, Bind.bind, Except.bind,
              Bool.false_eq_true, if_false, Except.ok.injEq, Prod.mk.injEq] at h
            obtain ⟨hsd, herr⟩ := h
            have hfne : sf ≠ f := by
              intro hcon
              rw [hcon] at hnull
              rw [hnull] at hpf
              injection hpf with hdata
              rw [← hdata] at hn
              cases hn
            rcases List.mem_cons.mp hsf with rfl | hsf2
            · exact absurd rfl hfne
            · obtain ⟨h1, h2⟩ := ih pr.1 pr.2 (by rw [hr]) sf hsf2 hnull
              constructor
              · rw [← hsd]
                intro hcon
                rcases List.mem_cons.mp hcon with hcon | hcon
                · exact hfne hcon
                · exact h1 hcon
              · rw [← herr]
                exact List.mem_append_right _ h2

/-- Corpus whose single stack document has no frontmatter at all. -/
def fsC3 : FS := ⟨[(".claude/stacks/web/svelte.md", "No header here\n")], []⟩

/-- Claim C3 counterexample: a stack document with a missing header is *not*
registered in the corpus registry with an empty header — `stack_data` stays
empty (the loop `continue`s before registration), so later keyed rules never
observe the document. -/
theorem c3_counterexample :
    stack_files fsC3 = [".claude/stacks/web/svelte.md"] ∧
    check1 yamlStub fsC3 =
      .ok ([], [msgNoFM "1" ".claude/stacks/web/svelte.md"]) := ⟨rfl, rfl⟩

/-- Claim C3 (amended): a stack or skill document with a missing header gets
one structural diagnostic but is excluded from the parsed-data registry
(`stack_data` / `skill_data`), so later keyed rules skip it; its raw content
is still registered in the semantics validator's content map; and a document
with a present-but-malformed header aborts the frontmatter validator's run
entirely. -/
theorem c3_amended :
    (∀ (tag : String) (keys : List String) (sl : String → Except String Yaml)
       (fs : FS) (files : List String) (sd : List (String × Yaml))
       (errs : List String) (sf : String),
      fmRequiredCheck tag keys sl fs files = .ok (sd, errs) →
      sf ∈ files → parse_frontmatter sl (fs.read sf) = .ok .null →
      sf ∉ sd.map Prod.fst ∧ msgNoFM tag sf ∈ errs) ∧
    (∀ (fs : FS) (sf : String), sf ∈ stack_files fs →
      (sf, fs.read sf) ∈ stack_contents fs) ∧
    (∀ (sl : String → Except String Yaml)
       (se : String → String → Except Unit Bool) (fs : FS) (sf : String)
       (rest : List String) (e : String),
      stack_files fs = sf :: rest →
      parse_frontmatter sl (fs.read sf) = .error e →
      runVF sl se fs = ([], .error e)) := by
  refine ⟨?_, ?_, ?_⟩
  · intro tag keys sl fs files sd errs sf h hmem hnull
    exact fmRequiredCheck_missing_header tag keys sl fs files sd errs h sf hmem hnull
  · intro fs sf hmem
    exact List.mem_map.mpr ⟨sf, hmem, rfl⟩
  · exact fun sl se fs sf rest e h1 h2 =>
      runVF_abort_first_stack sl se fs sf rest e h1 h2

theorem c3_amended_witness :
    fmRequiredCheck "1" STACK_REQUIRED_KEYS yamlStub fsC3 (stack_files fsC3) =
      .ok ([], [msgNoFM "1" ".claude/stacks/web/svelte.md"]) ∧
    (".claude/stacks/web/svelte.md" ∉
       ([] : List (String × Yaml)).map Prod.fst ∧
     msgNoFM "1" ".claude/stacks/web/svelte.md" ∈
       [msgNoFM "1" ".claude/stacks/web/svelte.md"]) ∧
    (".claude/stacks/web/svelte.md", fsC3.read ".claude/stacks/web/svelte.md") ∈
      stack_contents fsC3 ∧
    runVF yamlStub reStubFalse fsC1 = ([], .error stubFlowErr) :=
  ⟨rfl,
   c3_amended.1 "1" STACK_REQUIRED_KEYS yamlStub fsC3 (stack_files fsC3) []
     [msgNoFM "1" ".claude/stacks/web/svelte.md"] ".claude/stacks/web/svelte.md"
     rfl (by decide) rfl,
   c3_amended.2.1 fsC3 ".claude/stacks/web/svelte.md" (by decide),
   c3_amended.2.2 yamlStub reStubFalse fsC1 ".claude/stacks/web/nextjs.md" []
     stubFlowErr rfl rfl⟩

/-! ## Claim C4 -/

theorem keysNotIn_map (m : List (String × Yaml)) (keys : List String) :
    keysNotIn (.map m) keys = .ok (keys.filter (fun k => !(dictHasKey m k))) := by
  induction keys with
  | nil => rfl
  | cons k ks ih =>
    rw [keysNotIn]
    simp only [pyIn, ih, Bind.bind, Except.bind, List.filter_cons]
    cases dictHasKey m k <;> simp

/-- Corpus whose single stack document has no frontmatter (for the C4
counterexample). -/
def fsC4 : FS := ⟨[(".claude/stacks/db/sqlite.md", "just prose\n")], []⟩

/-- Claim C4 counterexample: for a document whose header block is entirely
absent, the structural rule emits exactly one `missing frontmatter`
diagnostic for the document — not one diagnostic per missing required key
(all seven stack keys are missing, yet one diagnostic is emitted). -/
theorem c4_counterexample :
    check1 yamlStub fsC4 =
      .ok ([], [msgNoFM "1" ".claude/stacks/db/sqlite.md"]) ∧
    STACK_REQUIRED_KEYS.length = 7 ∧
    [msgNoFM "1" ".claude/stacks/db/sqlite.md"].length ≠ STACK_REQUIRED_KEYS.length :=
  ⟨rfl, rfl, by decide⟩

/-- Claim C4 (amended): for a document whose header decodes to a mapping the
structural rule emits exactly one diagnostic per missing required key (and
registers the document); for a document whose header block is absent it
emits a single per-document `missing frontmatter` diagnostic instead and
registers nothing. -/
theorem c4_amended :
    (∀ (tag : String) (keys : List String) (sl : String → Except String Yaml)
       (fs : FS) (sf : String) (rest : List String) (m : List (String × Yaml))
       (sdR : List (String × Yaml)) (eR : List String),
      parse_frontmatter sl (fs.read sf) = .ok (.map m) →
      fmRequiredCheck tag keys sl fs rest = .ok (sdR, eR) →
      fmRequiredCheck tag keys sl fs (sf :: rest) =
        .ok ((sf, .map m) :: sdR,
          (keys.filter (fun k => !(dictHasKey m k))).map (msgMissingKey tag sf)
            ++ eR)) ∧
    (∀ (tag : String) (keys : List String) (sl : String → Except String Yaml)
       (fs : FS) (sf : String) (rest : List String)
       (sdR : List (String × Yaml)) (eR : List String),
      parse_frontmatter sl (fs.read sf) = .ok .null →
      fmRequiredCheck tag keys sl fs rest = .ok (sdR, eR) →
      fmRequiredCheck tag keys sl fs (sf :: rest) =
        .ok (sdR, msgNoFM tag sf :: eR)) := by
  constructor
  · intro tag keys sl fs sf rest m sdR eR hpf hrest
    rw [fmRequiredCheck]
    simp [hpf, hrest, keysNotIn_map, yamlIsNull, Bind.bind, Except.bind]
  · intro tag keys sl fs sf rest sdR eR hpf hrest
    rw [fmRequiredCheck]
    simp [hpf, hrest, yamlIsNull, Bind.bind, Except.bind]

/-- Corpus whose single stack document has a decodable header carrying only
the `assumes` key. -/
def fsC4b : FS :=
  ⟨[(".claude/stacks/db/postgres.md", "---\nassumes: x\n---\nBody\n")], []⟩

theorem c4_amended_witness :
    parse_frontmatter yamlStub (fsC4b.read ".claude/stacks/db/postgres.md") =
      .ok (.map [("assumes", .str "x")]) ∧
    fmRequiredCheck "1" STACK_REQUIRED_KEYS yamlStub fsC4b
        [".claude/stacks/db/postgres.md"] =
      .ok ([(".claude/stacks/db/postgres.md", .map [("assumes", .str "x")])],
        (STACK_REQUIRED_KEYS.filter
            (fun k => !(dictHasKey [("assumes", Yaml.str "x")] k))).map
          (msgMissingKey "1" ".claude/stacks/db/postgres.md") ++ []) ∧
    fmRequiredCheck "1" STACK_REQUIRED_KEYS yamlStub fsC4
        [".claude/stacks/db/sqlite.md"] =
      .ok ([], [msgNoFM "1" ".claude/stacks/db/sqlite.md"]) :=
  ⟨rfl,
   c4_amended.1 "1" STACK_REQUIRED_KEYS yamlStub fsC4b
     ".claude/stacks/db/postgres.md" [] [("assumes", .str "x")] [] [] rfl rfl,
   by
     have h := c4_amended.2 "1" STACK_REQUIRED_KEYS yamlStub fsC4
       ".claude/stacks/db/sqlite.md" [] [] [] rfl rfl
     simpa using h⟩

/-! ## Claim C6 -/

theorem tryOpenFence_prefix (cs : List Char) (l : String) (rest : List Char)
    (h : tryOpenFence cs = some (l, rest)) :
    (fence ++ l.data).isPrefixOf cs = true := by
  match cs with
  | [] => cases h
  | [b1] => cases h
  | [b1, b2] => cases h
  | b1 :: b2 :: b3 :: r =>
    rw [tryOpenFence] at h
    by_cases hcond : (b1 = btick && b2 = btick && b3 = btick) = true
    · rw [if_pos hcond] at h
      simp only [Bool.and_eq_true, decide_eq_true_eq] at hcond
      obtain ⟨⟨hb1, hb2⟩, hb3⟩ := hcond
      subst hb1; subst hb2; subst hb3
      simp only [] at h
      cases hli : lastIdxOf '\n' ((r.drop (r.takeWhile isWordChar).length).takeWhile isPySpace) with
      | none => rw [hli] at h; cases h
      | some j =>
        rw [hli] at h
        injection h with h
        rw [Prod.mk.injEq] at h
        obtain ⟨hl, -⟩ := h
        obtain ⟨t, ht⟩ := List.takeWhile_prefix (l := r) (p := isWordChar)
        refine List.isPrefixOf_iff_prefix.mpr ⟨t, ?_⟩
        rw [← hl]
        show (fence ++ r.takeWhile isWordChar) ++ t = btick :: btick :: btick :: r
        rw [fence, List.append_assoc, ht]
        rfl
    · rw [if_neg hcond] at h
      cases h

theorem tryOpenFence_suffix (cs : List Char) (l : String) (rest : List Char)
    (h : tryOpenFence cs = some (l, rest)) :
    rest <:+ cs ∧ rest.length < cs.length := by
  match cs with
  | [] => cases h
  | [b1] => cases h
  | [b1, b2] => cases h
  | b1 :: b2 :: b3 :: r =>
    rw [tryOpenFence] at h
    by_cases hcond : (b1 = btick && b2 = btick && b3 = btick) = true
    · rw [if_pos hcond] at h
      simp only [] at h
      cases hli : lastIdxOf '\n' ((r.drop (r.takeWhile isWordChar).length).takeWhile isPySpace) with
      | none => rw [hli] at h; cases h
      | some j =>
        rw [hli] at h
        injection h with h
        rw [Prod.mk.injEq] at h
        obtain ⟨-, hr⟩ := h
        have hsub : rest <:+ r := by
          rw [← hr]
          exact (List.drop_suffix _ _).trans (List.drop_suffix _ _)
        refine ⟨hsub.trans ⟨[b1, b2, b3], rfl⟩, ?_⟩
        calc rest.length ≤ r.length := hsub.length_le
          _ < (b1 :: b2 :: b3 :: r).length := by
            simp only [List.length_cons]
            omega
    · rw [if_neg hcond] at h
      cases h

theorem findClose_decomp : ∀ (b : Bool) (cs body after : List Char),
    findClose b cs = some (body, after) → cs = body ++ fence ++ after := by
  intro b cs
  induction cs generalizing b with
  | nil =>
    intro body after h
    rw [findClose] at h
    simp [show fence.isPrefixOf ([] : List Char) = false from rfl] at h
  | cons c rest ih =>
    intro body after h
    rw [findClose] at h
    by_cases hcond : (b && fence.isPrefixOf (c :: rest)) = true
    · rw [if_pos hcond] at h
      injection h with h
      rw [Prod.mk.injEq] at h
      obtain ⟨hb, ha⟩ := h
      obtain ⟨t, ht⟩ := List.isPrefixOf_iff_prefix.mp (Bool.and_elim_right hcond)
      have hdrop : (c :: rest).drop 3 = t := by
        rw [← ht]
        exact List.drop_left fence t
      rw [← hb, ← ha, hdrop, List.nil_append, ← ht]
    · rw [if_neg hcond] at h
      cases hrec : findClose (c == '\n') rest with
      | none => rw [hrec] at h; cases h
      | some pr =>
        rw [hrec] at h
        injection h with h
        rw [Prod.mk.injEq] at h
        obtain ⟨hb, ha⟩ := h
        have hrest := ih (c == '\n') pr.1 pr.2 (by rw [hrec])
        rw [← hb, ← ha]
        simp only [List.cons_append]
        exact congrArg (List.cons c) hrest

theorem scanGo_sound (orig : List Char) :
    ∀ (fuel : Nat) (cs : List Char) (pos : Nat) (atStart : Bool),
      cs = orig.drop pos →
      (atStart = true → pos = 0 ∨ (orig.drop (pos - 1)).head? = some '\n') →
      ∀ rb ∈ scanGo fuel cs pos atStart,
        (rb.startPos = 0 ∨ (orig.drop (rb.startPos - 1)).head? = some '\n') ∧
        (fence ++ rb.lang.data).isPrefixOf (orig.drop rb.startPos) = true := by
  intro fuel
  induction fuel with
  | zero =>
    intro cs pos atStart hcs hstart rb hrb
    simp [scanGo] at hrb
  | succ fuel ih =>
    intro cs pos atStart hcs hstart rb hrb
    cases cs with
    | nil => simp [scanGo] at hrb
    | cons c rest =>
      have hadvcs : rest = orig.drop (pos + 1) := by
        have h1 : (orig.drop pos).drop 1 = orig.drop (pos + 1) := by
          rw [List.drop_drop]
        rw [← h1, ← hcs]
        rfl
      have hadvstart : (decide (c = '\n')) = true →
          pos + 1 = 0 ∨ (orig.drop (pos + 1 - 1)).head? = some '\n' := by
        intro hdec
        right
        have : orig.drop pos = c :: rest := hcs.symm
        rw [Nat.add_sub_cancel, this]
        simp only [List.head?_cons, Option.some.injEq]
        exact of_decide_eq_true hdec
      rw [scanGo] at hrb
      cases hat : atStart with
      | false =>
        rw [hat] at hrb
        simp only [Bool.false_eq_true, if_false] at hrb
        exact ih rest (pos + 1) (decide (c = '\n')) hadvcs hadvstart rb hrb
      | true =>
        rw [hat] at hrb
        simp only [if_true] at hrb
        cases hopen : tryOpenFence (c :: rest) with
        | none =>
          rw [hopen] at hrb
          exact ih rest (pos + 1) (decide (c = '\n')) hadvcs hadvstart rb hrb
        | some pr =>
          obtain ⟨lang, afterOpen⟩ := pr
          rw [hopen] at hrb
          dsimp only at hrb
          cases hclose : findClose true afterOpen with
          | none =>
            rw [hclose] at hrb
            exact ih rest (pos + 1) (decide (c = '\n')) hadvcs hadvstart rb hrb
          | some pr2 =>
            obtain ⟨body, afterClose⟩ := pr2
            rw [hclose] at hrb
            rcases List.mem_cons.mp hrb with rfl | hrb2
            · refine ⟨hstart hat, ?_⟩
              rw [← hcs]
              exact tryOpenFence_prefix _ _ _ hopen
            · obtain ⟨t0, ht0⟩ := (tryOpenFence_suffix _ _ _ hopen).1
              have hdec := findClose_decomp true afterOpen body afterClose hclose
              have hsplit : c :: rest = (t0 ++ (body ++ fence)) ++ afterClose := by
                rw [← ht0, hdec]
                simp [List.append_assoc]
              have hlen : (c :: rest).length - afterClose.length =
                  (t0 ++ (body ++ fence)).length := by
                rw [hsplit, List.length_append]
                omega
              have hcs2 : afterClose =
                  orig.drop (pos + ((c :: rest).length - afterClose.length)) := by
                rw [hlen]
                have h1 : orig.drop (pos + (t0 ++ (body ++ fence)).length) =
                    (orig.drop pos).drop (t0 ++ (body ++ fence)).length := by
                  rw [List.drop_drop]
                  try rw [Nat.add_comm]
                rw [h1, ← hcs, hsplit]
                exact (List.drop_left _ _).symm
              exact ih afterClose (pos + ((c :: rest).length - afterClose.length))
                false hcs2 (by intro hcon; cases hcon) rb hrb2

theorem extract_filter_refine (content : String) (l : List String) (hl : l ≠ []) :
    extract_code_blocks content (some l) =
      (extract_code_blocks content none).filter (fun b => l.contains b.lang) := by
  have hle : l.isEmpty = false := by
    cases l with
    | nil => exact absurd rfl hl
    | cons a as => rfl
  unfold extract_code_blocks
  generalize scanBlocks content = rbs
  induction rbs with
  | nil => rfl
  | cons rb rest ih =>
    simp only [List.filterMap_cons, langFilterSkip, hle, Bool.false_eq_true,
      if_false] at ih ⊢
    cases hc : l.contains rb.lang with
    | true =>
      simp only [hc, Bool.not_true, Bool.false_eq_true, if_false,
        List.filter_cons]
      rw [ih]
      simp [hc]
    | false =>
      simp only [hc, Bool.not_false, if_true, List.filter_cons]
      rw [ih]
      simp [hc]

theorem extract_sound (content : String) (b : Block)
    (hb : b ∈ extract_code_blocks content none) :
    ∃ rb ∈ scanBlocks content,
      b.lang = rb.lang ∧ b.code = String.mk rb.body ∧
      b.start_line = (content.data.take rb.startPos).count '\n' + 1 ∧
      (rb.startPos = 0 ∨ (content.data.drop (rb.startPos - 1)).head? = some '\n') ∧
      (fence ++ rb.lang.data).isPrefixOf (content.data.drop rb.startPos) = true := by
  unfold extract_code_blocks at hb
  rcases List.mem_filterMap.mp hb with ⟨rb, hrb, hf⟩
  have hbval : b = ⟨rb.lang, String.mk rb.body,
      (content.data.take rb.startPos).count '\n' + 1⟩ := by
    have : langFilterSkip none rb.lang = false := rfl
    rw [this] at hf
    simp at hf
    exact hf.symm
  have hsound := scanGo_sound content.data content.data.length content.data 0 true
    rfl (fun _ => Or.inl rfl) rb hrb
  exact ⟨rb, hrb, by rw [hbval], by rw [hbval], by rw [hbval],
    (hsound).1, (hsound).2⟩

/-- The document of the C6 counterexample: one fenced `q` block. -/
def c6Text : String :=
  String.mk ([btick, btick, btick] ++ "q\nx\n".data ++ [btick, btick, btick] ++ ['\n'])

/-- Claim C6 counterexample: with an *empty* language-filter set the function
returns all fenced blocks, not "exactly the blocks whose tag is a member of
the filter set" (there is none) — Python treats the empty set as falsy and
skips the filtering branch entirely. -/
theorem c6_counterexample :
    extract_code_blocks c6Text (some []) = [⟨"q", "x\n", 1⟩] ∧
    (("q" ∈ ([] : List String)) → False) := ⟨rfl, List.not_mem_nil "q"⟩

/-- Claim C6 (amended): for a *non-empty* filter set the function returns
exactly the fenced blocks whose language tag is a member of the set; an
empty filter set (like no filter) returns all fenced blocks; and every
returned block's `start_line` is the 1-based line number of its opening
fence: the match offset sits at the start of a line, the three backticks
followed by the language tag sit exactly there, and `start_line` counts the
newlines before that offset plus one. -/
theorem c6_amended :
    (∀ (content : String) (l : List String), l ≠ [] →
      extract_code_blocks content (some l) =
        (extract_code_blocks content none).filter (fun b => l.contains b.lang)) ∧
    (∀ content : String,
      extract_code_blocks content (some []) = extract_code_blocks content none) ∧
    (∀ (content : String) (b : Block), b ∈ extract_code_blocks content none →
      ∃ rb ∈ scanBlocks content,
        b.lang = rb.lang ∧ b.code = String.mk rb.body ∧
        b.start_line = (content.data.take rb.startPos).count '\n' + 1 ∧
        (rb.startPos = 0 ∨ (content.data.drop (rb.startPos - 1)).head? = some '\n') ∧
        (fence ++ rb.lang.data).isPrefixOf (content.data.drop rb.startPos) = true) :=
  ⟨extract_filter_refine, fun _ => rfl, extract_sound⟩

theorem c6_amended_witness :
    (["q"] ≠ ([] : List String)) ∧
    extract_code_blocks c6Text (some ["q"]) =
      (extract_code_blocks c6Text none).filter (fun b => ["q"].contains b.lang) ∧
    extract_code_blocks c6Text (some []) = extract_code_blocks c6Text none ∧
    ((⟨"q", "x\n", 1⟩ : Block) ∈ extract_code_blocks c6Text none) ∧
    (∃ rb ∈ scanBlocks c6Text,
      ("q" : String) = rb.lang ∧ ("x\n" : String) = String.mk rb.body ∧
      1 = (c6Text.data.take rb.startPos).count '\n' + 1 ∧
      (rb.startPos = 0 ∨ (c6Text.data.drop (rb.startPos - 1)).head? = some '\n') ∧
      (fence ++ rb.lang.data).isPrefixOf (c6Text.data.drop rb.startPos) = true) :=
  ⟨List.cons_ne_nil _ _,
   c6_amended.1 c6Text ["q"] (List.cons_ne_nil _ _),
   c6_amended.2.1 c6Text,
   by decide,
   c6_amended.2.2 c6Text ⟨"q", "x\n", 1⟩ (by decide)⟩
